import Mathlib

/-!
Verification development for the HidroAlerta SE hydrological core.

This file gives a shallow embedding, over `ℚ`, of the pure numerical kernels
of the repository:

* `server/services/hydro-engine.js` (semi-distributed version): SCS curve
  number loss, rational method, Clark unit hydrograph, Muskingum routing,
  per-subcatchment calculation and the distributed basin orchestrator;
* the alert classifier `AlertEngine.evaluate`;
* the inverse-distance interpolator `SpatialInterpolator.idw`.

Modelling conventions:

* JavaScript numbers are modelled as rationals.  Every arithmetic operation
  the embedded code paths perform is exact in `ℚ` except `Math.pow` with a
  fractional exponent, which occurs only inside the Temez time-of-
  concentration fallback; that fallback is abstracted as an arbitrary
  function parameter `temez : Subc → ℚ` (the source uses it only when a
  subcatchment does not supply `tc`).
* `x || d` on a number is `jsOr x d` (`0` is falsy); `obj.f || d` on an
  optional field is `Option.getD` composed with the same rule.
* `Math.round x` is `⌊x + 1/2⌋` (JavaScript rounds half towards +∞).
* `Math.ceil` is `Int.ceil` followed by `Int.toNat` where the source uses
  the result as a loop bound (a negative bound yields zero iterations).
* `Math.max(...list)` is `maxFlow = foldl max 0`; the source only applies
  it to non-empty lists of clamped (non-negative) flows, where the two
  agree.
* `new Date().toISOString()` is an explicit `now : String` parameter.
* Division in `ℚ` is total with `q / 0 = 0`; the source never divides by
  zero on the parameter ranges any theorem below speaks about.
* `Array.prototype.sort` with comparator `order[a.level] - order[b.level]`
  is a stable sort on three severity keys; a stable sort is extensionally
  unique, so it is embedded as the concatenation of the three filters.
-/

/-- JavaScript `a || d` for numbers: `0` is falsy. -/
def jsOr (a d : ℚ) : ℚ := if a = 0 then d else a

/-- JavaScript `Math.round`: round half towards positive infinity. -/
def jsRound (q : ℚ) : ℤ := ⌊q + 1/2⌋

/-- `Math.round(x * 10) / 10` — one decimal. -/
def round1dp (q : ℚ) : ℚ := (jsRound (q * 10) : ℚ) / 10

/-- `Math.round(x * 100) / 100` — two decimals. -/
def round2dp (q : ℚ) : ℚ := (jsRound (q * 100) : ℚ) / 100

/-- `Math.max(...l)` for the non-empty lists of clamped flows the source
uses it on (all elements `≥ 0`, where folding from `0` agrees). -/
def maxFlow (l : List ℚ) : ℚ := l.foldl max 0

/-- One hydrograph sample `{ time, flow }` (hours, m³/s). -/
structure Sample where
  time : ℚ
  flow : ℚ
deriving DecidableEq

/-- Muskingum routing parameters `{ K, X, reaches }`; absent fields are
`none` (the source reads them with `||` defaults). -/
structure Routing where
  K : Option ℚ
  X : Option ℚ
  reaches : Option ℕ
deriving DecidableEq

/-- A subcatchment record.  `tc = 0` and `storageCoeff = 0` stand for the
absent (falsy) field, exactly as the source's `||` reads treat them. -/
structure Subc where
  id : ℕ
  name : String
  area : ℚ
  cn : ℚ
  tc : ℚ
  storageCoeff : ℚ
  routingToOutlet : Option Routing
deriving DecidableEq

/-- Alert thresholds `{ yellow, orange, red }` in m³/s. -/
structure Thresholds where
  yellow : ℚ
  orange : ℚ
  red : ℚ
deriving DecidableEq

/-- A basin from the catalogue; the physical fields double as the
`{...basin, cn}` spread the lumped fallback builds. -/
structure Basin where
  id : ℕ
  name : String
  btype : String
  area : ℚ
  cn : ℚ
  tc : ℚ
  storageCoeff : ℚ
  thresholds : Option Thresholds
  subcatchments : List Subc

/-- Local precipitation data for one subcatchment. -/
structure PrecipData where
  precip : ℚ
  intensity : ℚ
deriving DecidableEq

/-- The `{subId: {precip, intensity}, mean, maxIntensity, ...}` object the
spatial estimator hands to `calculateBasinDistributed`. -/
structure PrecipMap where
  lookup : ℕ → Option PrecipData
  mean : ℚ
  maxIntensity : ℚ

/-- Result of `calculateSubcatchment`, with the `routedHydrograph` field the
orchestrator adds afterwards. -/
structure SubResult where
  subId : ℕ
  subName : String
  area : ℚ
  tc : ℚ
  cn : ℚ
  precipitation : ℚ
  intensity : ℚ
  effectiveRainfall : ℚ
  rationalFlow : ℚ
  clarkPeakFlow : ℚ
  peakFlow : ℚ
  hydrograph : List Sample
  routedHydrograph : List Sample
  dt : ℚ
deriving DecidableEq

/-- The per-subcatchment summary embedded in a basin result. -/
structure SubSummary where
  subId : ℕ
  subName : String
  area : ℚ
  precipitation : ℚ
  intensity : ℚ
  effectiveRainfall : ℚ
  peakFlow : ℚ
  routedPeak : ℚ
  tc : ℚ
  cn : ℚ
deriving DecidableEq

/-- Result of `calculateBasinDistributed` / `calculateLumped`.  The lumped
path has no `peakTime` and adds `tc`/`effectiveRainfall`; the heterogeneous
JavaScript records are merged with `Option` fields. -/
structure BasinResult where
  basinId : ℕ
  basinName : String
  btype : String
  method : String
  dt : ℚ
  peakFlow : ℚ
  peakTime : Option ℚ
  compositeHydrograph : List Sample
  subcatchmentResults : List SubSummary
  tc : Option ℚ
  effectiveRainfall : Option ℚ
  timestamp : String
deriving DecidableEq

/-- Alert levels, `green < yellow < orange < red` in severity. -/
inductive Level where
  | green
  | yellow
  | orange
  | red
deriving DecidableEq

/-- Numeric severity of a level. -/
def severity : Level → ℕ
  | .green => 0
  | .yellow => 1
  | .orange => 2
  | .red => 3

/-- One basin entry of the `state.basins` map as `AlertEngine.evaluate`
reads it. -/
structure BasinState where
  name : String
  thresholds : Option Thresholds
  currentFlow : ℚ
  precipitation : ℚ
  intensity : ℚ
  hydroResult : Option BasinResult
deriving DecidableEq

/-- An emitted alert record. -/
structure Alert where
  basinId : ℕ
  basinName : String
  level : Level
  message : String
  flow : ℚ
  precipitation : ℚ
  intensity : ℚ
  timestamp : String
deriving DecidableEq

/-! ## Hydrology engine (`hydro-engine.js`, semi-distributed version) -/

/-- `calculateTc`: returns `sub.tc` when truthy, otherwise the Temez
formula `0.3·(L/S^0.25)^0.76`, abstracted as `temez` (irrational powers). -/
def calculateTc (temez : Subc → ℚ) (sub : Subc) : ℚ :=
  if sub.tc = 0 then temez sub else sub.tc

/-- `scsCurveNumber(P, cn)`: SCS-CN effective rainfall. -/
def scsCurveNumber (P cn : ℚ) : ℚ :=
  let S := 25400 / cn - 254
  let Ia := (1/5) * S
  if P ≤ Ia then 0 else (P - Ia) ^ 2 / (P + (4/5) * S)

/-- `cnToRunoffCoeff(cn)`: fine CN→C table. -/
def cnToRunoffCoeff (cn : ℚ) : ℚ :=
  if 90 ≤ cn then 85/100
  else if 85 ≤ cn then 72/100
  else if 80 ≤ cn then 60/100
  else if 75 ≤ cn then 50/100
  else if 70 ≤ cn then 40/100
  else if 65 ≤ cn then 30/100
  else if 60 ≤ cn then 22/100
  else 15/100

/-- `rationalMethod(sub, intensity)`: `Q = C·I·A/3.6`. -/
def rationalMethod (sub : Subc) (intensity : ℚ) : ℚ :=
  cnToRunoffCoeff sub.cn * intensity * sub.area / (36/10)

/-- The parabolic time-area S-curve `taf` of `clarkUnitHydrograph`. -/
def taf (f : ℚ) : ℚ :=
  if f ≤ 0 then 0
  else if 1 ≤ f then 1
  else if f ≤ 1/2 then 2 * f * f
  else 1 - 2 * (1 - f) * (1 - f)

/-- Phase 1 of `clarkUnitHydrograph`: inflow from the time-area curve,
`inflow[i] = max(0, A1 - A0) * vol / (dt*3600)` while `i·dt ≤ tc`. -/
def clarkInflow (tc vol dt : ℚ) (n : ℕ) : List ℚ :=
  (List.range n).map fun i : ℕ =>
    let t : ℚ := (i : ℚ) * dt
    if t ≤ tc ∧ 0 < tc then
      max 0 (taf (t / tc) - (if 0 < i then taf ((t - dt) / tc) else 0)) * vol / (dt * 3600)
    else 0

/-- Phase 2 of `clarkUnitHydrograph`: the linear reservoir
`Q = C1·inflow[i] + C2·Qp`, pushing `max(0, Q)` and carrying the
unclamped `Q` forward. -/
def reservoir (c1 c2 : ℚ) : List ℚ → ℚ → List ℚ
  | [], _ => []
  | f :: fs, qp =>
    let q := c1 * f + c2 * qp
    max 0 q :: reservoir c1 c2 fs q

/-- The time-area volume fraction released over step `i` (the `max(0, A1 - A0)`
factor of `clarkInflow`), named for the mass-balance lemmas. -/
def clarkFrac (tc dt : ℚ) (i : ℕ) : ℚ :=
  if (i : ℚ) * dt ≤ tc ∧ 0 < tc then
    max 0 (taf ((i : ℚ) * dt / tc) - (if 0 < i then taf (((i : ℚ) * dt - dt) / tc) else 0))
  else 0

/-- `clarkUnitHydrograph(sub, Pe, dt)`. -/
def clarkUnitHydrograph (temez : Subc → ℚ) (sub : Subc) (Pe dt0 : ℚ) : List Sample :=
  let dt := jsOr dt0 (1/4)
  let tc := calculateTc temez sub
  let R := jsOr sub.storageCoeff (tc * (7/10))
  let totalTime := tc + R * 4
  let n := (⌈totalTime / dt⌉).toNat
  let vol := Pe / 1000 * sub.area * 1000000
  let c1 := dt / (R + dt / 2)
  let flows := reservoir c1 (1 - c1) (clarkInflow tc vol dt n) 0
  flows.enum.map fun p => ⟨round2dp (p.1 * dt), p.2⟩

/-- Effective Muskingum `X`: `routing.X || 0.2`. -/
def effX (r : Routing) : ℚ :=
  match r.X with
  | none => 1/5
  | some x => jsOr x (1/5)

/-- Effective Muskingum reach count: `routing.reaches || 1`. -/
def effReaches (r : Routing) : ℕ :=
  match r.reaches with
  | none => 1
  | some n => if n = 0 then 1 else n

/-- Inner loop of one Muskingum reach:
`O = max(0, C0·I[i] + C1·I[i-1] + C2·O[i-1])`. -/
def muskingumGo (c0 c1 c2 : ℚ) (prevI prevO : ℚ) : List ℚ → List ℚ
  | [] => []
  | i :: rest =>
    let o := max 0 (c0 * i + c1 * prevI + c2 * prevO)
    o :: muskingumGo c0 c1 c2 i o rest

/-- One Muskingum reach: `routed = [current[0]]` then the recurrence. -/
def muskingumPass (c0 c1 c2 : ℚ) : List ℚ → List ℚ
  | [] => []
  | f :: rest => f :: muskingumGo c0 c1 c2 f f rest

/-- The `for (r = 0; r < reaches; r++)` loop.  The denominator test does
not depend on the reach index, so `denom ≤ 0` skips every reach and
otherwise the pass is iterated `n` times. -/
def muskingumApply (K X dt : ℚ) (n : ℕ) (flows : List ℚ) : List ℚ :=
  let denom := K - K * X + dt / 2
  if denom ≤ 0 then flows
  else (muskingumPass ((-(K * X) + dt / 2) / denom) ((K * X + dt / 2) / denom)
      ((K - K * X - dt / 2) / denom))^[n] flows

/-- `muskingumRouting(hydrograph, routing, dt)`. -/
def muskingumRouting (hyd : List Sample) (routing : Option Routing) (dt0 : ℚ) :
    List Sample :=
  match routing with
  | none => hyd
  | some r =>
    match r.K with
    | none => hyd
    | some K =>
      if K = 0 then hyd
      else
        let dt := jsOr dt0 (1/4)
        let current := muskingumApply K (effX r) dt (effReaches r) (hyd.map (·.flow))
        current.enum.map fun p =>
          ⟨match hyd[p.1]? with
            | some s => s.time
            | none => p.1 * dt, p.2⟩

/-- `calculateSubcatchment(sub, precip, intensity)` (`routedHydrograph` is
filled in by the orchestrator; the source adds the field later). -/
def calculateSubcatchment (temez : Subc → ℚ) (sub : Subc) (precip intensity : ℚ) :
    SubResult :=
  let dt : ℚ := 1/4
  let tc := calculateTc temez sub
  let Pe := scsCurveNumber precip sub.cn
  let Qrational := rationalMethod sub intensity
  let hyd := if 0 < Pe then clarkUnitHydrograph temez sub Pe dt else []
  let Qpeak := if 0 < Pe then maxFlow (hyd.map (·.flow)) else 0
  { subId := sub.id, subName := sub.name, area := sub.area, tc := tc, cn := sub.cn
    precipitation := precip, intensity := intensity, effectiveRainfall := Pe
    rationalFlow := round1dp Qrational, clarkPeakFlow := round1dp Qpeak
    peakFlow := round1dp (max Qrational Qpeak)
    hydrograph := hyd, routedHydrograph := [], dt := dt }

/-- Step 1–2 of `calculateBasinDistributed` for one subcatchment: local
result plus routing to the control point. -/
def routedSubResult (temez : Subc → ℚ) (pm : PrecipMap) (sub : Subc) : SubResult :=
  let pData := (pm.lookup sub.id).getD ⟨0, 0⟩
  let result := calculateSubcatchment temez sub pData.precip pData.intensity
  if 0 < result.hydrograph.length ∧ sub.routingToOutlet.isSome then
    { result with routedHydrograph := muskingumRouting result.hydrograph sub.routingToOutlet (1/4) }
  else
    { result with routedHydrograph := result.hydrograph }

/-- The `subResults` list of `calculateBasinDistributed`. -/
def subResultsOf (temez : Subc → ℚ) (basin : Basin) (pm : PrecipMap) : List SubResult :=
  basin.subcatchments.map (routedSubResult temez pm)

/-- The `maxTime` accumulation: latest last-sample time over the routed
hydrographs, starting from `0`. -/
def maxTimeOf (srs : List SubResult) : ℚ :=
  srs.foldl
    (fun m sr =>
      match sr.routedHydrograph.getLast? with
      | some s => max m s.time
      | none => m) 0

/-- One step of the `totalFlow` accumulation:
`if (rh && rh[i]) totalFlow += rh[i].flow`. -/
def flowStep (i : ℕ) (tf : ℚ) (sr : SubResult) : ℚ :=
  match sr.routedHydrograph[i]? with
  | some s => tf + s.flow
  | none => tf

/-- `totalFlow` at composite index `i`: the loop over `subResults`. -/
def flowSumAt (srs : List SubResult) (i : ℕ) : ℚ :=
  srs.foldl (flowStep i) 0

/-- The summary record kept in `subcatchmentResults`. -/
def summarize (sr : SubResult) : SubSummary :=
  { subId := sr.subId, subName := sr.subName, area := sr.area
    precipitation := sr.precipitation, intensity := sr.intensity
    effectiveRainfall := sr.effectiveRainfall, peakFlow := sr.peakFlow
    routedPeak :=
      if 0 < sr.routedHydrograph.length then
        round1dp (maxFlow (sr.routedHydrograph.map (·.flow)))
      else 0
    tc := sr.tc, cn := sr.cn }

/-- The `{...basin, cn}` spread used by the lumped fallback. -/
def basinAsSub (basin : Basin) (cn : ℚ) : Subc :=
  { id := basin.id, name := basin.name, area := basin.area, cn := cn
    tc := basin.tc, storageCoeff := basin.storageCoeff, routingToOutlet := none }

/-- `calculateLumped(basin, precipitation, intensity)`: aggregated fallback
when the basin has no subcatchments. -/
def calculateLumped (temez : Subc → ℚ) (now : String) (basin : Basin) (p i : ℚ) :
    BasinResult :=
  let dt : ℚ := 1/4
  let cn := jsOr basin.cn 75
  let subLike := basinAsSub basin cn
  let tc := calculateTc temez subLike
  let Pe := scsCurveNumber p cn
  let Qr := rationalMethod subLike i
  let hyd := if 0 < Pe then clarkUnitHydrograph temez subLike Pe dt else []
  let Qc := if 0 < hyd.length then maxFlow (hyd.map (·.flow)) else 0
  { basinId := basin.id, basinName := basin.name, btype := basin.btype
    method := "lumped", dt := dt, peakFlow := round1dp (max Qr Qc)
    peakTime := none, compositeHydrograph := hyd, subcatchmentResults := []
    tc := some tc, effectiveRainfall := some Pe, timestamp := now }

/-- `calculateBasinDistributed(basin, subcatchmentPrecip)`: semi-distributed
model (subcatchment hydrographs, Muskingum routing, superposition). -/
def calculateBasinDistributed (temez : Subc → ℚ) (now : String) (basin : Basin)
    (pm : PrecipMap) : BasinResult :=
  let dt : ℚ := 1/4
  if basin.subcatchments = [] then
    calculateLumped temez now basin (jsOr pm.mean 0) (jsOr pm.maxIntensity 0)
  else
    let srs := subResultsOf temez basin pm
    let n := (⌈maxTimeOf srs / dt⌉ + 1).toNat
    let composite := (List.range n).map fun i : ℕ =>
      (⟨round2dp ((i : ℚ) * dt), flowSumAt srs i⟩ : Sample)
    let peak := if 0 < composite.length then maxFlow (composite.map (·.flow)) else 0
    let pt :=
      if 0 < composite.length then
        jsOr (match composite.find? (fun s => decide (s.flow = peak)) with
          | some s => s.time
          | none => 0) 0
      else 0
    { basinId := basin.id, basinName := basin.name, btype := basin.btype
      method := "semi_distributed", dt := dt, peakFlow := round1dp peak
      peakTime := some (round2dp pt), compositeHydrograph := composite
      subcatchmentResults := srs.map summarize, tc := none
      effectiveRainfall := none, timestamp := now }

/-! ## Alert classifier (`AlertEngine.evaluate`) -/

/-- The threshold cascade of `AlertEngine.evaluate` (first match wins). -/
def classify (flow intensity precip : ℚ) (t : Thresholds) : Level :=
  if t.red ≤ flow ∨ 60 ≤ intensity ∨ 100 ≤ precip then .red
  else if t.orange ≤ flow ∨ 30 ≤ intensity ∨ 50 ≤ precip then .orange
  else if t.yellow ≤ flow ∨ 15 ≤ intensity ∨ 20 ≤ precip then .yellow
  else .green

/-- Alert message per level. -/
def levelMessage : Level → String
  | .red => "ALERTA ROJA: Riesgo extremo de riada"
  | .orange => "ALERTA NARANJA: Riesgo alto de crecida"
  | .yellow => "AVISO AMARILLO: Precipitaciones significativas"
  | .green => "Normal"

/-- The alert-building loop of `evaluate`: basins with a falsy
`hydroResult` are skipped with `continue`; non-green levels push an
alert record. -/
def alertsOf (now : String) : List (ℕ × BasinState) → List Alert
  | [] => []
  | (id, b) :: rest =>
    match b.hydroResult with
    | none => alertsOf now rest
    | some _ =>
      let t := b.thresholds.getD ⟨50, 150, 300⟩
      let flow := jsOr b.currentFlow 0
      let precip := jsOr b.precipitation 0
      let intensity := jsOr b.intensity 0
      let lv := classify flow intensity precip t
      if lv = .green then alertsOf now rest
      else
        ⟨id, b.name, lv, levelMessage lv, round2dp flow, round1dp precip,
          round1dp intensity, now⟩ :: alertsOf now rest

/-- `alerts.sort((a,b) => order[a.level] - order[b.level])`: a stable sort
on the three severity keys (green never occurs in the list); the unique
stable result is the concatenation of the three filters. -/
def sortAlerts (l : List Alert) : List Alert :=
  l.filter (fun a => decide (a.level = .red)) ++
    l.filter (fun a => decide (a.level = .orange)) ++
    l.filter (fun a => decide (a.level = .yellow))

/-- `AlertEngine.evaluate(basins)` with the clock explicit. -/
def evaluate (now : String) (bs : List (ℕ × BasinState)) : List Alert :=
  sortAlerts (alertsOf now bs)

/-- One basin's slice of `updateCycle` in `server.js`: run the distributed
model, update the basin state, evaluate alerts. -/
def runPipeline (temez : Subc → ℚ) (now : String) (basin : Basin) (pm : PrecipMap) :
    BasinResult × List Alert :=
  let hr := calculateBasinDistributed temez now basin pm
  let b : BasinState :=
    { name := basin.name, thresholds := basin.thresholds
      currentFlow := hr.peakFlow, precipitation := pm.mean
      intensity := pm.maxIntensity, hydroResult := some hr }
  (hr, evaluate now [(basin.id, b)])

/-! ## Spatial interpolator (`spatial-interpolator.js`) -/

/-- A sample point for IDW: position plus the polymorphic field value
(`st[field]`, absent = `none`; the source reads it as `st[field] || 0`). -/
structure Station where
  lat : ℚ
  lon : ℚ
  val : Option ℚ
deriving DecidableEq

/-- The accumulation loop of `idw`, with the `break`-on-colocated-sample
modelled by returning directly.  `dist` abstracts `haversineDistance`
(transcendental); power `p = 2` and radius `50` are the constructor
constants. -/
def idwGo (dist : ℚ → ℚ → ℚ → ℚ → ℚ) (lat lon : ℚ) :
    List Station → ℚ → ℚ → ℚ
  | [], sumWV, sumW => if 0 < sumW then sumWV / sumW else 0
  | st :: rest, sumWV, sumW =>
    let d := dist lat lon st.lat st.lon
    if d < 1/100 then st.val.getD 0
    else if 50 < d then idwGo dist lat lon rest sumWV sumW
    else idwGo dist lat lon rest (sumWV + 1 / d ^ 2 * st.val.getD 0) (sumW + 1 / d ^ 2)

/-- `idw(lat, lon, stations, field)`. -/
def idw (dist : ℚ → ℚ → ℚ → ℚ → ℚ) (lat lon : ℚ) (stations : List Station) : ℚ :=
  idwGo dist lat lon stations 0 0

/-- Modelled from the spec (§4.2), for comparison with `idw`: first sample
closer than 0.01 km wins; otherwise inverse-square-distance weighting over
the samples within 50 km; `0` when none is within range. -/
def idwSpec (dist : ℚ → ℚ → ℚ → ℚ → ℚ) (lat lon : ℚ) (stations : List Station) : ℚ :=
  match stations.find? (fun st => decide (dist lat lon st.lat st.lon < 1/100)) with
  | some st => st.val.getD 0
  | none =>
    let sel := stations.filter (fun st => decide (dist lat lon st.lat st.lon ≤ 50))
    if sel = [] then 0
    else
      (sel.map (fun st => 1 / dist lat lon st.lat st.lon ^ 2 * st.val.getD 0)).sum /
        (sel.map (fun st => 1 / dist lat lon st.lat st.lon ^ 2)).sum

/-- The source's `calculateSubcatchment` body contains no `throw`, no
validation and no error branch of any kind, so its faithful embedding into
an error-capable result type is constantly `Except.ok`. -/
def calculateSubcatchmentChecked (temez : Subc → ℚ) (sub : Subc)
    (precip intensity : ℚ) : Except String SubResult :=
  Except.ok (calculateSubcatchment temez sub precip intensity)

/-- Erase the wall-clock field of a basin result. -/
def stripTime (r : BasinResult) : BasinResult := { r with timestamp := "" }

/-- Erase the wall-clock field of an alert. -/
def stripTimeA (a : Alert) : Alert := { a with timestamp := "" }

/-! ## Concrete fixtures used by witnesses and counterexamples -/

/-- A concrete stand-in for the (irrational) Temez fallback; none of the
fixtures below ever reach it because they all supply `tc` explicitly. -/
def temez0 : Subc → ℚ := fun _ => 0

/-- Subcatchment with `tc = 0.5 h`, `R = 0.1 h`, area 100 km², `CN = 100`
(so `Pe = P` exactly), routed with `K = 1 h`, `X = 0.5`, one reach. -/
def subR : Subc := ⟨1, "s", 100, 100, 1/2, 1/10, some ⟨some 1, some (1/2), some 1⟩⟩

/-- Precipitation map: 20 mm / 0 mm·h⁻¹ for subcatchment 1. -/
def pm1 : PrecipMap := ⟨fun n => if n = 1 then some ⟨20, 0⟩ else none, 20, 0⟩

/-- A basin holding `subR` only. -/
def b1 : Basin := ⟨5, "b", "river", 100, 75, 1, 0, none, [subR]⟩

/-- Unphysical subcatchment: `CN = 150`, outside `[30, 100]`. -/
def sub150 : Subc := ⟨2, "bad", 10, 150, 1, 0, none⟩

/-- Subcatchment whose `tc = 0.1 h` lies below the `Δt = 0.25 h` grid. -/
def sub01 : Subc := ⟨3, "tiny", 10, 100, 1/10, 1, none⟩

/-- Subcatchment for the Clark volume witness: `tc = 1`, `R = 1`. -/
def subW : Subc := ⟨4, "w", 100, 100, 1, 1, none⟩

/-- A formally complete basin result used to build classifier fixtures. -/
def dummyResult : BasinResult :=
  ⟨1, "b", "river", "semi_distributed", 1/4, 500, some 0, [], [], none, none, "t"⟩

/-- Basin-state list with one basin carrying a hydro result and a flow of
500 m³/s (no thresholds, so the `{50, 150, 300}` defaults apply). -/
def bsWit : List (ℕ × BasinState) := [(7, ⟨"b", none, 500, 0, 0, some dummyResult⟩)]

/-- The red alert `evaluate` emits for `bsWit`. -/
def aWit : Alert :=
  ⟨7, "b", .red, "ALERTA ROJA: Riesgo extremo de riada", 500, 0, 0, "t"⟩

/-! ## General lemmas -/

theorem jsOr_zero (a : ℚ) : jsOr a 0 = a := by
  unfold jsOr
  split_ifs with h
  · exact h.symm
  · rfl

theorem jsOr_of_ne {a : ℚ} (d : ℚ) (h : a ≠ 0) : jsOr a d = a := if_neg h

theorem round2dp_quarter (i : ℕ) : round2dp ((i : ℚ) * (1/4)) = (i : ℚ) * (1/4) := by
  unfold round2dp jsRound
  have h1 : (i : ℚ) * (1/4) * 100 = ((25 * i : ℤ) : ℚ) := by push_cast; ring
  rw [h1, add_comm, Int.floor_add_int]
  have h2 : ⌊(1/2 : ℚ)⌋ = 0 := by norm_num
  rw [h2]
  push_cast
  ring

/-! ## C3 — SCS curve-number loss -/

/-- C3: for every gross rainfall `P ≥ 0` and `CN ∈ [30, 100]`,
`scsCurveNumber` satisfies `0 ≤ Pe`, `Pe ≤ P`, `Pe = 0` exactly when
`P ≤ 0.2·S` with `S = 25400/CN − 254`, and otherwise
`Pe = (P − Ia)²/(P + 0.8·S)` with `Ia = 0.2·S`. -/
theorem scsCurveNumber_props (P cn : ℚ) (hP : 0 ≤ P) (h30 : 30 ≤ cn) (h100 : cn ≤ 100) :
    0 ≤ scsCurveNumber P cn ∧ scsCurveNumber P cn ≤ P ∧
      (scsCurveNumber P cn = 0 ↔ P ≤ (1/5) * (25400 / cn - 254)) ∧
      (¬ P ≤ (1/5) * (25400 / cn - 254) →
        scsCurveNumber P cn =
          (P - (1/5) * (25400 / cn - 254)) ^ 2 / (P + (4/5) * (25400 / cn - 254))) := by
  have hcn : 0 < cn := by linarith
  have hS : 0 ≤ 25400 / cn - 254 := by
    have h : (254 : ℚ) ≤ 25400 / cn := (le_div_iff₀ hcn).mpr (by linarith)
    linarith
  have hval : scsCurveNumber P cn =
      if P ≤ (1/5) * (25400 / cn - 254) then 0
      else (P - (1/5) * (25400 / cn - 254)) ^ 2 / (P + (4/5) * (25400 / cn - 254)) := rfl
  obtain ⟨S, hSg⟩ : ∃ S, 25400 / cn - 254 = S := ⟨_, rfl⟩
  rw [hSg] at hval hS ⊢
  by_cases hle : P ≤ (1/5) * S
  · rw [hval, if_pos hle]
    exact ⟨le_rfl, hP, iff_of_true rfl hle, fun h => absurd hle h⟩
  · have hlt : (1/5) * S < P := lt_of_not_le hle
    have hden : 0 < P + (4/5) * S := by linarith
    rw [hval, if_neg hle]
    refine ⟨div_nonneg (sq_nonneg _) hden.le, ?_, ?_, fun _ => rfl⟩
    · rw [div_le_iff₀ hden]
      nlinarith
    · constructor
      · intro h0
        exfalso
        have hnum : 0 < (P - (1/5) * S) ^ 2 := pow_pos (by linarith) 2
        have hpos : (0 : ℚ) < (P - (1/5) * S) ^ 2 / (P + (4/5) * S) := div_pos hnum hden
        rw [h0] at hpos
        exact lt_irrefl 0 hpos
      · intro h
        exact absurd h hle

/-- Witness for C3 at the spec's spot check `P = 50`, `CN = 80`. -/
theorem scsCurveNumber_props_witness :
    (0 ≤ (50 : ℚ)) ∧ (30 ≤ (80 : ℚ)) ∧ ((80 : ℚ) ≤ 100) ∧
      0 ≤ scsCurveNumber 50 80 ∧ scsCurveNumber 50 80 ≤ 50 :=
  ⟨by norm_num, by norm_num, by norm_num,
    (scsCurveNumber_props 50 80 (by norm_num) (by norm_num) (by norm_num)).1,
    (scsCurveNumber_props 50 80 (by norm_num) (by norm_num) (by norm_num)).2.1⟩

/-! ## C9 — Muskingum pass-through cases -/

theorem enum_map_reconstruct (hyd : List Sample) (dt : ℚ) :
    ((hyd.map (·.flow)).enum.map fun p =>
        (⟨match hyd[p.1]? with
          | some s => s.time
          | none => (p.1 : ℚ) * dt, p.2⟩ : Sample)) = hyd := by
  apply List.ext_getElem
  · simp
  · intro i h1 h2
    simp only [List.getElem_map, List.getElem_enum, List.getElem?_eq_getElem h2]

/-- C9 (implicit): `muskingumRouting` passes its hydrograph through
unchanged when the routing argument is absent, when the `K` field is absent
or zero (so `K = 0` silently does nothing instead of erroring), and when
the per-reach denominator `K − K·X + 0.5·Δt` is not positive. -/
theorem muskingumRouting_identity (hyd : List Sample) (dt0 : ℚ) :
    muskingumRouting hyd none dt0 = hyd ∧
      (∀ r : Routing, r.K = none ∨ r.K = some 0 → muskingumRouting hyd (some r) dt0 = hyd) ∧
      (∀ (r : Routing) (k : ℚ), r.K = some k →
        k - k * effX r + jsOr dt0 (1/4) / 2 ≤ 0 → muskingumRouting hyd (some r) dt0 = hyd) := by
  refine ⟨rfl, ?_, ?_⟩
  · intro r h
    rcases h with h | h <;> simp [muskingumRouting, h]
  · intro r k hk hden
    by_cases hk0 : k = 0
    · simp [muskingumRouting, hk, hk0]
    · simp only [muskingumRouting, hk, if_neg hk0]
      rw [muskingumApply, if_pos hden]
      exact enum_map_reconstruct hyd (jsOr dt0 (1/4))

/-- Witness for C9: a concrete reach with `K = −1`, `X = 0.5` makes the
denominator `−3/8 ≤ 0` and the hydrograph is returned unchanged. -/
theorem muskingumRouting_identity_witness :
    muskingumRouting [⟨0, 5⟩] (some ⟨some (-1), some (1/2), some 1⟩) (1/4) = [⟨0, 5⟩] :=
  (muskingumRouting_identity [⟨0, 5⟩] (1/4)).2.2 ⟨some (-1), some (1/2), some 1⟩ (-1) rfl
    (by norm_num [effX, jsOr])

/-! ## C5 — alert level monotonicity -/

theorem severity_classify (f i p : ℚ) (t : Thresholds) :
    severity (classify f i p t) =
      if t.red ≤ f ∨ 60 ≤ i ∨ 100 ≤ p then 3
      else if t.orange ≤ f ∨ 30 ≤ i ∨ 50 ≤ p then 2
      else if t.yellow ≤ f ∨ 15 ≤ i ∨ 20 ≤ p then 1
      else 0 := by
  unfold classify
  split_ifs <;> rfl

/-- C5: the alert level is monotone in `(Q, I, P)` for any fixed
thresholds: raising any input never lowers the severity. -/
theorem classify_monotone (t : Thresholds) (q i p q' i' p' : ℚ)
    (hq : q ≤ q') (hi : i ≤ i') (hp : p ≤ p') :
    severity (classify q i p t) ≤ severity (classify q' i' p' t) := by
  have hR : (t.red ≤ q ∨ 60 ≤ i ∨ 100 ≤ p) → (t.red ≤ q' ∨ 60 ≤ i' ∨ 100 ≤ p') := by
    rintro (h | h | h)
    · exact Or.inl (le_trans h hq)
    · exact Or.inr (Or.inl (le_trans h hi))
    · exact Or.inr (Or.inr (le_trans h hp))
  have hO : (t.orange ≤ q ∨ 30 ≤ i ∨ 50 ≤ p) → (t.orange ≤ q' ∨ 30 ≤ i' ∨ 50 ≤ p') := by
    rintro (h | h | h)
    · exact Or.inl (le_trans h hq)
    · exact Or.inr (Or.inl (le_trans h hi))
    · exact Or.inr (Or.inr (le_trans h hp))
  have hY : (t.yellow ≤ q ∨ 15 ≤ i ∨ 20 ≤ p) → (t.yellow ≤ q' ∨ 15 ≤ i' ∨ 20 ≤ p') := by
    rintro (h | h | h)
    · exact Or.inl (le_trans h hq)
    · exact Or.inr (Or.inl (le_trans h hi))
    · exact Or.inr (Or.inr (le_trans h hp))
  rw [severity_classify, severity_classify]
  split_ifs <;>
    first
      | omega
      | (exfalso; exact absurd (hR (by assumption)) (by assumption))
      | (exfalso; exact absurd (hO (by assumption)) (by assumption))
      | (exfalso; exact absurd (hY (by assumption)) (by assumption))

/-- Witness for C5 at the spec's escalation scenario:
`(40, 10, 10) ≤ (60, 10, 10)` with thresholds `{50, 150, 300}`. -/
theorem classify_monotone_witness :
    severity (classify 40 10 10 ⟨50, 150, 300⟩) ≤ severity (classify 60 10 10 ⟨50, 150, 300⟩) :=
  classify_monotone ⟨50, 150, 300⟩ 40 10 10 60 10 10 (by norm_num) le_rfl le_rfl

/-! ## C10 — basins without a hydro result are skipped -/

theorem alertsOf_filter_isSome (now : String) :
    ∀ bs : List (ℕ × BasinState),
      alertsOf now bs = alertsOf now (bs.filter fun p => p.2.hydroResult.isSome)
  | [] => rfl
  | (id, b) :: rest => by
    cases hb : b.hydroResult with
    | none =>
      have hf : (((id, b) :: rest).filter fun p => p.2.hydroResult.isSome) =
          rest.filter fun p => p.2.hydroResult.isSome := by
        simp [List.filter, hb]
      rw [hf]
      show alertsOf now ((id, b) :: rest) = _
      simp only [alertsOf, hb]
      exact alertsOf_filter_isSome now rest
    | some r =>
      have hf : (((id, b) :: rest).filter fun p => p.2.hydroResult.isSome) =
          (id, b) :: rest.filter fun p => p.2.hydroResult.isSome := by
        simp [List.filter, hb]
      rw [hf]
      simp only [alertsOf, hb]
      rw [← alertsOf_filter_isSome now rest]

theorem mem_alertsOf (now : String) :
    ∀ (bs : List (ℕ × BasinState)) (a : Alert), a ∈ alertsOf now bs →
      ∃ p ∈ bs, p.2.hydroResult.isSome ∧ a.basinId = p.1
  | [], a, h => absurd h (by simp [alertsOf])
  | (id, b) :: rest, a, h => by
    revert h
    cases hb : b.hydroResult with
    | none =>
      intro h
      simp only [alertsOf, hb] at h
      obtain ⟨p, hp, hrest⟩ := mem_alertsOf now rest a h
      exact ⟨p, List.mem_cons_of_mem _ hp, hrest⟩
    | some r =>
      intro h
      simp only [alertsOf, hb] at h
      by_cases hlv : classify (jsOr b.currentFlow 0) (jsOr b.intensity 0)
          (jsOr b.precipitation 0) (b.thresholds.getD ⟨50, 150, 300⟩) = .green
      · rw [if_pos hlv] at h
        obtain ⟨p, hp, hrest⟩ := mem_alertsOf now rest a h
        exact ⟨p, List.mem_cons_of_mem _ hp, hrest⟩
      · rw [if_neg hlv] at h
        rcases List.mem_cons.mp h with h0 | h1
        · exact ⟨(id, b), List.mem_cons_self _ _, by simp [hb], by rw [h0]⟩
        · obtain ⟨p, hp, hrest⟩ := mem_alertsOf now rest a h1
          exact ⟨p, List.mem_cons_of_mem _ hp, hrest⟩

theorem mem_of_mem_sortAlerts {a : Alert} {l : List Alert} (h : a ∈ sortAlerts l) :
    a ∈ l := by
  unfold sortAlerts at h
  rcases List.mem_append.mp h with h1 | h2
  · rcases List.mem_append.mp h1 with h3 | h4
    · exact List.mem_of_mem_filter h3
    · exact List.mem_of_mem_filter h4
  · exact List.mem_of_mem_filter h2

/-- C10 (implicit): `AlertEngine.evaluate` emits nothing for basins whose
`hydroResult` is null or absent — removing them from the input changes
nothing, no matter how large their flow, precipitation or intensity — and
every emitted alert originates from a basin with a non-null `hydroResult`. -/
theorem evaluate_skips_null_hydroResult :
    (∀ (now : String) (bs : List (ℕ × BasinState)),
        evaluate now bs = evaluate now (bs.filter fun p => p.2.hydroResult.isSome)) ∧
      ∀ (now : String) (bs : List (ℕ × BasinState)) (a : Alert),
        a ∈ evaluate now bs → ∃ p ∈ bs, p.2.hydroResult.isSome ∧ a.basinId = p.1 := by
  constructor
  · intro now bs
    unfold evaluate
    rw [← alertsOf_filter_isSome]
  · intro now bs a h
    exact mem_alertsOf now bs a (mem_of_mem_sortAlerts h)

/-- Witness for C10: the red alert emitted for `bsWit` traces back to the
basin with the non-null hydro result. -/
theorem evaluate_skips_null_hydroResult_witness :
    ∃ p ∈ bsWit, p.2.hydroResult.isSome ∧ aWit.basinId = p.1 :=
  evaluate_skips_null_hydroResult.2 "t" bsWit aWit (by
    have h : evaluate "t" bsWit = [aWit] := by
      norm_num [evaluate, alertsOf, bsWit, dummyResult, sortAlerts, classify, jsOr,
        levelMessage, aWit, round2dp, round1dp, jsRound, List.filter,
        show decide (Level.red = Level.orange) = false from rfl,
        show decide (Level.red = Level.yellow) = false from rfl,
        show decide (Level.red = Level.red) = true from rfl]
    rw [h]
    exact List.mem_singleton.mpr rfl)

/-! ## C7 — no parameter validation exists -/

/-- C7 (amended): processing a basin with unphysical parameters never
fails: `calculateSubcatchment` has no validation or error path at all, and
an out-of-range curve number is simply fed through the numerics — for
`CN > 100` (where `S < 0`) with `0 ≤ P < 0.8·|S|` it produces a negative
effective rainfall that propagates into the result record. -/
theorem calculateSubcatchment_never_fails (temez : Subc → ℚ) (sub : Subc)
    (precip intensity : ℚ) :
    (calculateSubcatchmentChecked temez sub precip intensity).isOk = true ∧
      (100 < sub.cn → 0 ≤ precip → precip + (4/5) * (25400 / sub.cn - 254) < 0 →
        (calculateSubcatchment temez sub precip intensity).effectiveRainfall < 0) := by
  constructor
  · rfl
  · intro hcn hP hden
    have hval : (calculateSubcatchment temez sub precip intensity).effectiveRainfall =
        scsCurveNumber precip sub.cn := rfl
    rw [hval]
    have hcn0 : (0 : ℚ) < sub.cn := by linarith
    have hS : 25400 / sub.cn - 254 < 0 := by
      have h : 25400 / sub.cn < 254 := (div_lt_iff₀ hcn0).mpr (by linarith)
      linarith
    have hIa : (1/5) * (25400 / sub.cn - 254) < 0 := by linarith
    have hnle : ¬ precip ≤ (1/5) * (25400 / sub.cn - 254) := by linarith
    have hval2 : scsCurveNumber precip sub.cn =
        (precip - (1/5) * (25400 / sub.cn - 254)) ^ 2 /
          (precip + (4/5) * (25400 / sub.cn - 254)) := by
      unfold scsCurveNumber
      rw [if_neg hnle]
    rw [hval2]
    exact div_neg_of_pos_of_neg (pow_pos (by linarith) 2) hden

/-- Witness for C7's amended statement at `CN = 150`, `P = 50`. -/
theorem calculateSubcatchment_never_fails_witness :
    (100 < (150 : ℚ)) ∧ (calculateSubcatchment temez0 sub150 50 0).effectiveRainfall < 0 :=
  ⟨by norm_num,
    (calculateSubcatchment_never_fails temez0 sub150 50 0).2 (by norm_num [sub150])
      (by norm_num) (by norm_num [sub150])⟩

/-- Counterexample for C7 as stated: the unphysical basin `CN = 150` is
processed without any error — the checked call returns `ok` and the
(unphysical, negative) effective rainfall `−504008/1995` lands in an
ordinary result record. -/
theorem unphysical_cn_processed_counterexample :
    (calculateSubcatchmentChecked temez0 sub150 50 0).isOk = true ∧
      (calculateSubcatchment temez0 sub150 50 0).effectiveRainfall = -504008/1995 := by
  constructor
  · rfl
  · have hval : (calculateSubcatchment temez0 sub150 50 0).effectiveRainfall =
        scsCurveNumber 50 sub150.cn := rfl
    rw [hval]
    norm_num [scsCurveNumber, sub150]

/-! ## C6 — the IDW interpolator -/

theorem sum_pos_of_mem_pos {l : List ℚ} (hne : l ≠ [])
    (hpos : ∀ x ∈ l, 0 < x) : 0 < l.sum := by
  cases l with
  | nil => exact absurd rfl hne
  | cons a t =>
    have ha : 0 < a := hpos a (List.mem_cons_self a t)
    have ht : 0 ≤ t.sum := List.sum_nonneg fun x hx => (hpos x (List.mem_cons_of_mem a hx)).le
    simpa using by linarith

theorem idwGo_spec (dist : ℚ → ℚ → ℚ → ℚ → ℚ) (lat lon : ℚ) :
    ∀ (l : List Station) (a b : ℚ),
      idwGo dist lat lon l a b =
        match l.find? (fun st => decide (dist lat lon st.lat st.lon < 1/100)) with
        | some st => st.val.getD 0
        | none =>
          if 0 < b + ((l.filter fun st => decide (dist lat lon st.lat st.lon ≤ 50)).map
              (fun st => 1 / dist lat lon st.lat st.lon ^ 2)).sum then
            (a + ((l.filter fun st => decide (dist lat lon st.lat st.lon ≤ 50)).map
              (fun st => 1 / dist lat lon st.lat st.lon ^ 2 * st.val.getD 0)).sum) /
              (b + ((l.filter fun st => decide (dist lat lon st.lat st.lon ≤ 50)).map
                (fun st => 1 / dist lat lon st.lat st.lon ^ 2)).sum)
          else 0
  | [], a, b => by simp [idwGo]
  | st :: rest, a, b => by
    by_cases h1 : dist lat lon st.lat st.lon < 1/100
    · rw [idwGo, if_pos h1, List.find?_cons_of_pos _ (by simpa using h1)]
    · rw [List.find?_cons_of_neg _ (by simpa using h1)]
      by_cases h2 : 50 < dist lat lon st.lat st.lon
      · have hfil : ((st :: rest).filter fun s => decide (dist lat lon s.lat s.lon ≤ 50)) =
            rest.filter fun s => decide (dist lat lon s.lat s.lon ≤ 50) := by
          simp [List.filter, not_le.mpr h2]
        rw [idwGo, if_neg h1, if_pos h2, hfil]
        exact idwGo_spec dist lat lon rest a b
      · have hfil : ((st :: rest).filter fun s => decide (dist lat lon s.lat s.lon ≤ 50)) =
            st :: rest.filter fun s => decide (dist lat lon s.lat s.lon ≤ 50) := by
          simp [List.filter, not_lt.mp h2]
        rw [idwGo, if_neg h1, if_neg h2, hfil]
        rw [idwGo_spec dist lat lon rest _ _]
        cases rest.find? (fun s => decide (dist lat lon s.lat s.lon < 1/100)) with
        | some s => rfl
        | none =>
          simp only [List.map_cons, List.sum_cons, add_assoc]

/-- C6: `idw` implements exactly the spec's interpolation contract — the
first sample closer than 0.01 km (in iteration order) is returned
directly; otherwise the inverse-square-distance weighted mean over exactly
the samples within 50 km; `0` when no sample is in range.  The haversine
distance enters only as an abstract distance function `dist`, so the
statement holds for it in particular. -/
theorem idw_eq_idwSpec (dist : ℚ → ℚ → ℚ → ℚ → ℚ) (lat lon : ℚ)
    (stations : List Station) :
    idw dist lat lon stations = idwSpec dist lat lon stations := by
  rw [idw, idwGo_spec, idwSpec]
  cases hf : stations.find? (fun st => decide (dist lat lon st.lat st.lon < 1/100)) with
  | some st => rfl
  | none =>
    have hall : ∀ st ∈ stations, ¬ (dist lat lon st.lat st.lon < 1/100) := by
      intro st hst
      have h := List.find?_eq_none.mp hf st hst
      simpa using h
    simp only [zero_add]
    by_cases hsel : (stations.filter fun st => decide (dist lat lon st.lat st.lon ≤ 50)) = []
    · rw [hsel]
      simp
    · have hpos : ∀ x ∈ ((stations.filter fun st =>
          decide (dist lat lon st.lat st.lon ≤ 50)).map
            (fun st => 1 / dist lat lon st.lat st.lon ^ 2)), 0 < x := by
        intro x hx
        obtain ⟨st, hst, hxeq⟩ := List.mem_map.mp hx
        have hmem := List.mem_of_mem_filter hst
        have hge : 1/100 ≤ dist lat lon st.lat st.lon := not_lt.mp (hall st hmem)
        have hd : 0 < dist lat lon st.lat st.lon := lt_of_lt_of_le (by norm_num) hge
        rw [← hxeq]
        positivity
      have hsum : 0 < ((stations.filter fun st =>
          decide (dist lat lon st.lat st.lon ≤ 50)).map
            (fun st => 1 / dist lat lon st.lat st.lon ^ 2)).sum :=
        sum_pos_of_mem_pos (by simpa using hsel) hpos
      rw [if_pos hsum, if_neg hsel]

/-! ## C2 — Muskingum attenuation -/

theorem le_foldl_max_init : ∀ (l : List ℚ) (a : ℚ), a ≤ l.foldl max a
  | [], _ => le_rfl
  | b :: t, a => le_trans (le_max_left a b) (le_foldl_max_init t (max a b))

theorem le_foldl_max_of_mem : ∀ (l : List ℚ) (a x : ℚ), x ∈ l → x ≤ l.foldl max a
  | [], _, _, h => absurd h (List.not_mem_nil _)
  | b :: t, a, x, h => by
    rcases List.mem_cons.mp h with rfl | ht
    · exact le_trans (le_max_right a x) (le_foldl_max_init t (max a x))
    · exact le_foldl_max_of_mem t (max a b) x ht

theorem foldl_max_le_of_le : ∀ (l : List ℚ) (a M : ℚ), a ≤ M → (∀ x ∈ l, x ≤ M) →
    l.foldl max a ≤ M
  | [], _, _, ha, _ => ha
  | b :: t, a, M, ha, hl => by
    refine foldl_max_le_of_le t (max a b) M (max_le ha (hl b (List.mem_cons_self b t))) ?_
    exact fun x hx => hl x (List.mem_cons_of_mem b hx)

theorem foldl_max_eq_or_mem : ∀ (l : List ℚ) (a : ℚ), l.foldl max a = a ∨ l.foldl max a ∈ l
  | [], _ => Or.inl rfl
  | b :: t, a => by
    rcases foldl_max_eq_or_mem t (max a b) with h | h
    · rcases max_choice a b with hab | hab
      · rw [List.foldl_cons, h, hab]
        exact Or.inl rfl
      · rw [List.foldl_cons, h, hab]
        exact Or.inr (List.mem_cons_self b t)
    · exact Or.inr (List.mem_cons_of_mem b h)

theorem maxFlow_mem {l : List ℚ} (hne : l ≠ []) (hnn : ∀ x ∈ l, 0 ≤ x) :
    maxFlow l ∈ l := by
  rcases foldl_max_eq_or_mem l 0 with h | h
  · cases l with
    | nil => exact absurd rfl hne
    | cons b t =>
      have hb : b ≤ maxFlow (b :: t) :=
        le_foldl_max_of_mem _ 0 b (List.mem_cons_self b t)
      have hb0 : 0 ≤ b := hnn b (List.mem_cons_self b t)
      have hmax : maxFlow (b :: t) = 0 := h
      have hb' : b = 0 := le_antisymm (hmax ▸ hb) hb0
      rw [maxFlow, h, ← hb']
      exact List.mem_cons_self b t
  · exact h

theorem muskingumGo_mem_le (c0 c1 c2 M : ℚ) (h0 : 0 ≤ c0) (h1 : 0 ≤ c1) (h2 : 0 ≤ c2)
    (hsum : c0 + c1 + c2 = 1) (hM : 0 ≤ M) :
    ∀ (flows : List ℚ) (prevI prevO : ℚ), prevI ≤ M → prevO ≤ M →
      (∀ f ∈ flows, f ≤ M) → ∀ x ∈ muskingumGo c0 c1 c2 prevI prevO flows, x ≤ M
  | [], _, _, _, _, _ => by intro x hx; simp [muskingumGo] at hx
  | i :: rest, prevI, prevO, hI, hO, hf => by
    intro x hx
    have hi : i ≤ M := hf i (List.mem_cons_self i rest)
    have hcomb : c0 * i + c1 * prevI + c2 * prevO ≤ M := by
      have t0 : c0 * i ≤ c0 * M := mul_le_mul_of_nonneg_left hi h0
      have t1 : c1 * prevI ≤ c1 * M := mul_le_mul_of_nonneg_left hI h1
      have t2 : c2 * prevO ≤ c2 * M := mul_le_mul_of_nonneg_left hO h2
      nlinarith
    have ho : max 0 (c0 * i + c1 * prevI + c2 * prevO) ≤ M := max_le hM hcomb
    rw [muskingumGo] at hx
    rcases List.mem_cons.mp hx with rfl | ht
    · exact ho
    · exact muskingumGo_mem_le c0 c1 c2 M h0 h1 h2 hsum hM rest i _ hi ho
        (fun f hfm => hf f (List.mem_cons_of_mem i hfm)) x ht

theorem muskingumGo_mem_nonneg (c0 c1 c2 : ℚ) :
    ∀ (flows : List ℚ) (prevI prevO : ℚ), ∀ x ∈ muskingumGo c0 c1 c2 prevI prevO flows, 0 ≤ x
  | [], _, _ => by intro x hx; simp [muskingumGo] at hx
  | i :: rest, prevI, prevO => by
    intro x hx
    rw [muskingumGo] at hx
    rcases List.mem_cons.mp hx with rfl | ht
    · exact le_max_left 0 _
    · exact muskingumGo_mem_nonneg c0 c1 c2 rest i _ x ht

theorem muskingumPass_mem_le (c0 c1 c2 M : ℚ) (h0 : 0 ≤ c0) (h1 : 0 ≤ c1) (h2 : 0 ≤ c2)
    (hsum : c0 + c1 + c2 = 1) (hM : 0 ≤ M) (flows : List ℚ) (hf : ∀ f ∈ flows, f ≤ M) :
    ∀ x ∈ muskingumPass c0 c1 c2 flows, x ≤ M := by
  cases flows with
  | nil => intro x hx; simp [muskingumPass] at hx
  | cons f rest =>
    intro x hx
    rw [muskingumPass] at hx
    have hfM : f ≤ M := hf f (List.mem_cons_self f rest)
    rcases List.mem_cons.mp hx with rfl | ht
    · exact hfM
    · exact muskingumGo_mem_le c0 c1 c2 M h0 h1 h2 hsum hM rest f f hfM hfM
        (fun g hg => hf g (List.mem_cons_of_mem f hg)) x ht

theorem muskingumPass_mem_nonneg (c0 c1 c2 : ℚ) (flows : List ℚ)
    (hf : ∀ f ∈ flows, 0 ≤ f) : ∀ x ∈ muskingumPass c0 c1 c2 flows, 0 ≤ x := by
  cases flows with
  | nil => intro x hx; simp [muskingumPass] at hx
  | cons f rest =>
    intro x hx
    rw [muskingumPass] at hx
    rcases List.mem_cons.mp hx with rfl | ht
    · exact hf x (List.mem_cons_self x rest)
    · exact muskingumGo_mem_nonneg c0 c1 c2 rest f f x ht

theorem muskingumPass_iterate_le (c0 c1 c2 M : ℚ) (h0 : 0 ≤ c0) (h1 : 0 ≤ c1)
    (h2 : 0 ≤ c2) (hsum : c0 + c1 + c2 = 1) (hM : 0 ≤ M) :
    ∀ (n : ℕ) (flows : List ℚ), (∀ f ∈ flows, 0 ≤ f) → (∀ f ∈ flows, f ≤ M) →
      (∀ x ∈ (muskingumPass c0 c1 c2)^[n] flows, 0 ≤ x) ∧
        ∀ x ∈ (muskingumPass c0 c1 c2)^[n] flows, x ≤ M
  | 0, flows, hnn, hle => ⟨hnn, hle⟩
  | n + 1, flows, hnn, hle => by
    rw [Function.iterate_succ_apply]
    exact muskingumPass_iterate_le c0 c1 c2 M h0 h1 h2 hsum hM n
      (muskingumPass c0 c1 c2 flows)
      (muskingumPass_mem_nonneg c0 c1 c2 flows hnn)
      (muskingumPass_mem_le c0 c1 c2 M h0 h1 h2 hsum hM flows hle)

theorem enum_map_flow (l : List ℚ) (g : ℕ × ℚ → ℚ) :
    ((l.enum.map fun p => (⟨g p, p.2⟩ : Sample)).map (·.flow)) = l := by
  apply List.ext_getElem
  · simp
  · intro i h1 h2
    simp [List.getElem_enum]

/-- C2 (amended): the routed peak never exceeds the raw peak when the
Muskingum coefficients are all non-negative, i.e. when
`0 ≤ K·X ≤ Δt/2 ≤ K·(1 − X)` (with `Δt = 0.25 h`).  Outside that region
the discretisation can amplify the peak and the claim fails. -/
theorem muskingum_attenuation (hyd : List Sample) (K X : ℚ) (rn : ℕ)
    (hX0 : X ≠ 0) (hKX0 : 0 ≤ K * X) (hKXle : K * X ≤ 1/8) (hK2 : 1/8 ≤ K - K * X)
    (hf : ∀ s ∈ hyd, 0 ≤ s.flow) :
    maxFlow ((muskingumRouting hyd (some ⟨some K, some X, some rn⟩) (1/4)).map (·.flow)) ≤
      maxFlow (hyd.map (·.flow)) := by
  have hK0 : K ≠ 0 := by
    rintro rfl
    rw [zero_mul, zero_sub] at hK2
    rw [zero_mul] at hKX0
    linarith
  have hXeff : effX ⟨some K, some X, some rn⟩ = X := by
    simp [effX, jsOr, hX0]
  have hdt : jsOr (1/4 : ℚ) (1/4) = 1/4 := by norm_num [jsOr]
  rw [muskingumRouting]
  simp only [hXeff, hdt, if_neg hK0]
  rw [enum_map_flow]
  have hden : (0 : ℚ) < K - K * X + (1/4) / 2 := by linarith
  rw [muskingumApply, if_neg (not_le.mpr hden)]
  have h0 : 0 ≤ (-(K * X) + (1/4) / 2) / (K - K * X + (1/4) / 2) :=
    div_nonneg (by linarith) hden.le
  have h1 : 0 ≤ (K * X + (1/4) / 2) / (K - K * X + (1/4) / 2) :=
    div_nonneg (by linarith) hden.le
  have h2 : 0 ≤ (K - K * X - (1/4) / 2) / (K - K * X + (1/4) / 2) :=
    div_nonneg (by linarith) hden.le
  have hsum : (-(K * X) + (1/4) / 2) / (K - K * X + (1/4) / 2) +
      (K * X + (1/4) / 2) / (K - K * X + (1/4) / 2) +
      (K - K * X - (1/4) / 2) / (K - K * X + (1/4) / 2) = 1 := by
    field_simp
    ring
  have hM : 0 ≤ maxFlow (hyd.map (·.flow)) := le_foldl_max_init _ 0
  have hnn : ∀ f ∈ hyd.map (·.flow), 0 ≤ f := by
    intro f hfm
    obtain ⟨s, hs, rfl⟩ := List.mem_map.mp hfm
    exact hf s hs
  have hle : ∀ f ∈ hyd.map (·.flow), f ≤ maxFlow (hyd.map (·.flow)) :=
    fun f hfm => le_foldl_max_of_mem _ 0 f hfm
  have hiter := muskingumPass_iterate_le _ _ _ _ h0 h1 h2 hsum hM
    (effReaches ⟨some K, some X, some rn⟩) (hyd.map (·.flow)) hnn hle
  exact foldl_max_le_of_le _ 0 _ hM hiter.2

/-- Witness for C2's amended statement: `K = 1/4`, `X = 1/2` sits exactly on
the stability boundary `K·X = Δt/2 = K·(1 − X)`. -/
theorem muskingum_attenuation_witness :
    maxFlow ((muskingumRouting ([⟨0, 0⟩, ⟨1/4, 10⟩, ⟨1/2, 4⟩] : List Sample)
        (some ⟨some (1/4), some (1/2), some 1⟩) (1/4)).map (·.flow)) ≤
      maxFlow (([⟨0, 0⟩, ⟨1/4, 10⟩, ⟨1/2, 4⟩] : List Sample).map (·.flow)) :=
  muskingum_attenuation ([⟨0, 0⟩, ⟨1/4, 10⟩, ⟨1/2, 4⟩] : List Sample) (1/4) (1/2) 1
    (by norm_num) (by norm_num) (by norm_num) (by norm_num)
    (by
      intro s hs
      rcases List.mem_cons.mp hs with rfl | hs'
      · norm_num
      · rcases List.mem_cons.mp hs' with rfl | hs2
        · norm_num
        · rcases List.mem_cons.mp hs2 with rfl | hs3
          · norm_num
          · exact absurd hs3 (List.not_mem_nil s))

/-! ### Concrete evaluation of the routed fixture subcatchment -/

theorem scs_fixture : scsCurveNumber 20 (100 : ℚ) = 20 := by norm_num [scsCurveNumber]

theorem clark_fixture : clarkUnitHydrograph temez0 subR 20 (1/4) =
    [⟨0, 0⟩, ⟨1/4, 100000/81⟩, ⟨1/2, 800000/729⟩, ⟨3/4, 0⟩] := by
  simp only [clarkUnitHydrograph, calculateTc, subR, jsOr]
  norm_num
  rw [show (⌈(18:ℚ)/5⌉).toNat = 4 by
      rw [show (⌈(18:ℚ)/5⌉ : ℤ) = 4 by rw [Int.ceil_eq_iff]; norm_num]; rfl]
  rw [show clarkInflow (1/2) 2000000 (1/4) 4 = [0, 10000/9, 10000/9, 0] by
      norm_num [clarkInflow, taf, show List.range 4 = [0, 1, 2, 3] from rfl]]
  rw [show reservoir (10/9) (-(1/9)) [0, 10000/9, 10000/9, 0] 0 =
      [0, 100000/81, 800000/729, 0] by norm_num [reservoir, max_def]]
  show List.map _ [(0, (0:ℚ)), (1, 100000/81), (2, 800000/729), (3, 0)] = _
  simp only [List.map_cons, List.map_nil, round2dp_quarter]
  norm_num

theorem hydrograph_fixture : (calculateSubcatchment temez0 subR 20 0).hydrograph =
    [⟨0, 0⟩, ⟨1/4, 100000/81⟩, ⟨1/2, 800000/729⟩, ⟨3/4, 0⟩] := by
  have h : (calculateSubcatchment temez0 subR 20 0).hydrograph =
      if 0 < scsCurveNumber 20 subR.cn then
        clarkUnitHydrograph temez0 subR (scsCurveNumber 20 subR.cn) (1/4)
      else [] := rfl
  rw [h, show subR.cn = (100:ℚ) from rfl, scs_fixture, if_pos (by norm_num), clark_fixture]

theorem routed_fixture : muskingumRouting
    ([⟨0, 0⟩, ⟨1/4, 100000/81⟩, ⟨1/2, 800000/729⟩, ⟨3/4, 0⟩] : List Sample)
    (some ⟨some 1, some (1/2), some 1⟩) (1/4) =
    [⟨0, 0⟩, ⟨1/4, 0⟩, ⟨1/2, 140000/243⟩, ⟨3/4, 1052000/729⟩] := by
  simp only [muskingumRouting, effX, effReaches, jsOr]
  norm_num [muskingumApply]
  rw [show muskingumPass (-(3/5)) 1 (3/5) [0, 100000/81, 800000/729, 0] =
      [0, 0, 140000/243, 1052000/729] by
    norm_num [muskingumPass, muskingumGo, max_def]]
  show List.map _ [(0, (0:ℚ)), (1, 0), (2, 140000/243), (3, 1052000/729)] = _
  norm_num [List.map_cons]

theorem subresult_fixture : (routedSubResult temez0 pm1 subR).hydrograph =
      ([⟨0, 0⟩, ⟨1/4, 100000/81⟩, ⟨1/2, 800000/729⟩, ⟨3/4, 0⟩] : List Sample) ∧
    (routedSubResult temez0 pm1 subR).routedHydrograph =
      ([⟨0, 0⟩, ⟨1/4, 0⟩, ⟨1/2, 140000/243⟩, ⟨3/4, 1052000/729⟩] : List Sample) := by
  have hp : (pm1.lookup subR.id).getD ⟨0, 0⟩ = ⟨20, 0⟩ := rfl
  have hcond : 0 < (calculateSubcatchment temez0 subR 20 0).hydrograph.length ∧
      subR.routingToOutlet.isSome := by
    rw [hydrograph_fixture]
    exact ⟨by norm_num, rfl⟩
  simp only [routedSubResult, hp]
  rw [if_pos hcond]
  constructor
  · exact hydrograph_fixture
  · show muskingumRouting (calculateSubcatchment temez0 subR 20 0).hydrograph
      subR.routingToOutlet (1/4) = _
    rw [hydrograph_fixture,
      show subR.routingToOutlet = some ⟨some 1, some (1/2), some 1⟩ from rfl, routed_fixture]

/-- Counterexample for C2 as stated: for the admissible routing parameters
`K = 1 h > 0`, `X = 0.5 ∈ [0, 0.5]`, `reaches = 1` the routed peak
`1052000/729 ≈ 1443.07` exceeds the raw Clark peak
`100000/81 ≈ 1234.57` by far more than the 1e-6 tolerance. -/
theorem muskingum_peak_amplification_counterexample :
    maxFlow ((routedSubResult temez0 pm1 subR).routedHydrograph.map (·.flow)) >
      maxFlow ((routedSubResult temez0 pm1 subR).hydrograph.map (·.flow)) + 1/1000000 := by
  rw [subresult_fixture.1, subresult_fixture.2]
  norm_num [maxFlow, max_def]

/-! ## C4 — Clark unit-hydrograph mass balance -/

theorem taf_nonneg (f : ℚ) : 0 ≤ taf f := by
  unfold taf
  split_ifs with h1 h2 h3
  · exact le_rfl
  · exact zero_le_one
  · nlinarith [lt_of_not_le h1]
  · nlinarith [lt_of_not_le h1, lt_of_not_le h2, lt_of_not_le h3]

theorem taf_le_one (f : ℚ) : taf f ≤ 1 := by
  unfold taf
  split_ifs with h1 h2 h3
  · exact zero_le_one
  · exact le_rfl
  · nlinarith [lt_of_not_le h1]
  · nlinarith [lt_of_not_le h1, lt_of_not_le h2, lt_of_not_le h3]

theorem taf_mono {x y : ℚ} (h : x ≤ y) : taf x ≤ taf y := by
  unfold taf
  split_ifs with hx1 hy1 hy2 hy3 hx2 hy4 hy5 hy6 hx3 hy7 hy8 hy9 hy10 hy11 hy12 <;>
    first
      | rfl
      | linarith
      | nlinarith [lt_of_not_le hx1, lt_of_not_le hy1]
      | nlinarith

theorem clarkInflow_eq_frac (tc vol dt : ℚ) (n : ℕ) :
    clarkInflow tc vol dt n = (List.range n).map fun i => clarkFrac tc dt i * (vol / (dt * 3600)) := by
  unfold clarkInflow clarkFrac
  apply List.map_congr_left
  intro i _
  by_cases hc : (i : ℚ) * dt ≤ tc ∧ 0 < tc
  · rw [if_pos hc, if_pos hc]
    ring
  · rw [if_neg hc, if_neg hc]
    ring

theorem clarkFrac_nonneg (tc dt : ℚ) (i : ℕ) : 0 ≤ clarkFrac tc dt i := by
  unfold clarkFrac
  by_cases hc : (i : ℚ) * dt ≤ tc ∧ 0 < tc
  · rw [if_pos hc]
    exact le_sup_left
  · rw [if_neg hc]

theorem clarkFrac_sum_le (tc dt : ℚ) (htc : 0 < tc) (hdt : 0 < dt) :
    ∀ m : ℕ, ((List.range m).map (clarkFrac tc dt)).sum ≤ taf (((m : ℚ) - 1) * dt / tc) := by
  intro m
  induction m with
  | zero => simpa using taf_nonneg _
  | succ m ih =>
    rw [List.range_succ, List.map_append, List.sum_append]
    simp only [List.map_cons, List.map_nil, List.sum_cons, List.sum_nil, add_zero]
    have hstep : (((m : ℚ) - 1) * dt / tc) ≤ ((m : ℚ)) * dt / tc := by
      apply div_le_div_of_nonneg_right _ htc.le
      nlinarith
    have hmono := taf_mono hstep
    have hcast : ((m + 1 : ℕ) : ℚ) - 1 = (m : ℚ) := by push_cast; ring
    rw [hcast]
    by_cases hc : (m : ℚ) * dt ≤ tc ∧ 0 < tc
    · by_cases hm : 0 < m
      · have hstep2 : (((m : ℚ) * dt - dt) / tc) ≤ ((m : ℚ)) * dt / tc := by
          apply div_le_div_of_nonneg_right _ htc.le
          nlinarith
        have hterm : clarkFrac tc dt m =
            taf ((m : ℚ) * dt / tc) - taf (((m : ℚ) * dt - dt) / tc) := by
          unfold clarkFrac
          rw [if_pos hc, if_pos hm]
          exact max_eq_right (by linarith [taf_mono hstep2])
        have heq : ((m : ℚ) - 1) * dt / tc = ((m : ℚ) * dt - dt) / tc := by ring_nf
        rw [hterm]
        rw [heq] at ih
        linarith
      · have hm0 : m = 0 := Nat.eq_zero_of_not_pos hm
        subst hm0
        have hterm : clarkFrac tc dt 0 = 0 := by
          unfold clarkFrac
          rw [if_pos hc, if_neg (lt_irrefl 0)]
          norm_num [taf]
        rw [hterm]
        simpa using le_trans (taf_nonneg _) hmono
    · have hterm : clarkFrac tc dt m = 0 := by
        unfold clarkFrac
        rw [if_neg hc]
      rw [hterm]
      rw [add_zero]
      exact le_trans ih hmono

theorem reservoir_mem_nonneg (c1 c2 : ℚ) :
    ∀ (fs : List ℚ) (qp : ℚ), ∀ x ∈ reservoir c1 c2 fs qp, 0 ≤ x
  | [], _ => by intro x hx; simp [reservoir] at hx
  | f :: fs, qp => by
    intro x hx
    rw [reservoir] at hx
    rcases List.mem_cons.mp hx with rfl | ht
    · exact le_max_left 0 _
    · exact reservoir_mem_nonneg c1 c2 fs _ x ht

theorem reservoir_sum_le (c1 c2 : ℚ) (h1 : 0 < c1) (h2 : 0 ≤ c2) (hs : c1 + c2 = 1) :
    ∀ (fs : List ℚ) (qp : ℚ), (∀ f ∈ fs, 0 ≤ f) → 0 ≤ qp →
      c1 * (reservoir c1 c2 fs qp).sum ≤ c1 * fs.sum + c2 * qp
  | [], qp, _, hqp => by
    simp only [reservoir, List.sum_nil, mul_zero, zero_add]
    positivity
  | f :: fs, qp, hf, hqp => by
    rw [reservoir]
    have hf0 : 0 ≤ f := hf f (List.mem_cons_self f fs)
    have hq : 0 ≤ c1 * f + c2 * qp := by positivity
    have hmax : max 0 (c1 * f + c2 * qp) = c1 * f + c2 * qp := max_eq_right hq
    rw [hmax]
    have ih := reservoir_sum_le c1 c2 h1 h2 hs fs (c1 * f + c2 * qp)
      (fun g hg => hf g (List.mem_cons_of_mem f hg)) hq
    rw [List.sum_cons, List.sum_cons]
    nlinarith

theorem clarkInflow_sum_le' (tc vol dt : ℚ) (hdt : 0 < dt) (hvol : 0 ≤ vol) (n : ℕ) :
    (clarkInflow tc vol dt n).sum * dt * 3600 ≤ vol := by
  rw [clarkInflow_eq_frac]
  have hfac : ((List.range n).map fun i => clarkFrac tc dt i * (vol / (dt * 3600))).sum =
      ((List.range n).map (clarkFrac tc dt)).sum * (vol / (dt * 3600)) := by
    induction (List.range n) with
    | nil => simp
    | cons a t iht =>
      simp only [List.map_cons, List.sum_cons, iht]
      ring
  rw [hfac]
  have h0 : 0 ≤ ((List.range n).map (clarkFrac tc dt)).sum := by
    apply List.sum_nonneg
    intro x hx
    obtain ⟨i, _, rfl⟩ := List.mem_map.mp hx
    exact clarkFrac_nonneg tc dt i
  have heq : ((List.range n).map (clarkFrac tc dt)).sum * (vol / (dt * 3600)) * dt * 3600 =
      ((List.range n).map (clarkFrac tc dt)).sum * vol := by
    field_simp
    ring
  rw [heq]
  by_cases htc : 0 < tc
  · have h1 : ((List.range n).map (clarkFrac tc dt)).sum ≤ 1 :=
      le_trans (clarkFrac_sum_le tc dt htc hdt n) (taf_le_one _)
    nlinarith
  · have hz : ((List.range n).map (clarkFrac tc dt)).sum = 0 := by
      apply List.sum_eq_zero
      intro x hx
      obtain ⟨i, _, rfl⟩ := List.mem_map.mp hx
      unfold clarkFrac
      rw [if_neg (by tauto)]
    rw [hz, zero_mul]
    exact hvol

/-- C4 (amended): the Clark unit hydrograph never creates mass — whenever
the effective storage coefficient is at least `Δt/2` (so the reservoir
recursion has non-negative coefficients), the discharged volume
`Σ Q·Δt·3600` is at most the runoff volume `Pe/1000·area·10⁶`.  It can
fall short of it by far more than 1% (see the counterexample), so equality
within 1% does not hold. -/
theorem clark_volume_le_runoff (temez : Subc → ℚ) (sub : Subc) (Pe : ℚ)
    (htc : 0 < calculateTc temez sub)
    (hR : 1/8 ≤ jsOr sub.storageCoeff (calculateTc temez sub * (7/10)))
    (harea : 0 < sub.area) (hPe : 0 < Pe) :
    ((clarkUnitHydrograph temez sub Pe (1/4)).map (·.flow)).sum * (1/4) * 3600 ≤
      Pe / 1000 * sub.area * 1000000 := by
  have hdt : jsOr (1/4 : ℚ) (1/4) = 1/4 := by norm_num [jsOr]
  rw [clarkUnitHydrograph]
  simp only [hdt]
  rw [enum_map_flow]
  have hvol : 0 ≤ Pe / 1000 * sub.area * 1000000 := by positivity
  have hc1pos : 0 < (1/4 : ℚ) / (jsOr sub.storageCoeff (calculateTc temez sub * (7/10)) + (1/4) / 2) := by
    apply div_pos (by norm_num)
    linarith
  have hc2 : 0 ≤ 1 - (1/4 : ℚ) / (jsOr sub.storageCoeff (calculateTc temez sub * (7/10)) + (1/4) / 2) := by
    have hden : (1/4 : ℚ) ≤ jsOr sub.storageCoeff (calculateTc temez sub * (7/10)) + (1/4) / 2 := by
      linarith
    have := div_le_one_of_le₀ hden (by linarith)
    linarith
  have hinfl_nonneg : ∀ f ∈ clarkInflow (calculateTc temez sub)
      (Pe / 1000 * sub.area * 1000000) (1/4)
      (⌈(calculateTc temez sub + jsOr sub.storageCoeff (calculateTc temez sub * (7/10)) * 4) / (1/4)⌉.toNat),
      0 ≤ f := by
    intro f hfm
    rw [clarkInflow_eq_frac] at hfm
    obtain ⟨i, _, rfl⟩ := List.mem_map.mp hfm
    have := clarkFrac_nonneg (calculateTc temez sub) (1/4) i
    positivity
  have hres := reservoir_sum_le _ _ hc1pos hc2 (by ring) _ 0 hinfl_nonneg le_rfl
  rw [mul_zero, add_zero] at hres
  have hsum_res : (reservoir
      ((1/4) / (jsOr sub.storageCoeff (calculateTc temez sub * (7/10)) + (1/4) / 2))
      (1 - (1/4) / (jsOr sub.storageCoeff (calculateTc temez sub * (7/10)) + (1/4) / 2))
      (clarkInflow (calculateTc temez sub) (Pe / 1000 * sub.area * 1000000) (1/4)
        (⌈(calculateTc temez sub + jsOr sub.storageCoeff (calculateTc temez sub * (7/10)) * 4) / (1/4)⌉.toNat)) 0).sum ≤
      (clarkInflow (calculateTc temez sub) (Pe / 1000 * sub.area * 1000000) (1/4)
        (⌈(calculateTc temez sub + jsOr sub.storageCoeff (calculateTc temez sub * (7/10)) * 4) / (1/4)⌉.toNat)).sum :=
    le_of_mul_le_mul_left hres hc1pos
  have hinfl := clarkInflow_sum_le' (calculateTc temez sub) (Pe / 1000 * sub.area * 1000000)
    (1/4) (by norm_num) hvol
    (⌈(calculateTc temez sub + jsOr sub.storageCoeff (calculateTc temez sub * (7/10)) * 4) / (1/4)⌉.toNat)
  calc (reservoir _ _ _ 0).sum * (1/4) * 3600
      ≤ (clarkInflow (calculateTc temez sub) (Pe / 1000 * sub.area * 1000000) (1/4)
          (⌈(calculateTc temez sub + jsOr sub.storageCoeff (calculateTc temez sub * (7/10)) * 4) / (1/4)⌉.toNat)).sum * (1/4) * 3600 := by
        have h9 : (0:ℚ) < (1/4) * 3600 := by norm_num
        nlinarith [hsum_res]
    _ ≤ Pe / 1000 * sub.area * 1000000 := by
        have := hinfl
        linarith [hinfl]

theorem clark_volume_le_runoff_witness :
    (0 < calculateTc temez0 subW) ∧
      ((clarkUnitHydrograph temez0 subW 20 (1/4)).map (·.flow)).sum * (1/4) * 3600 ≤
        20 / 1000 * subW.area * 1000000 :=
  ⟨by norm_num [calculateTc, subW],
    clark_volume_le_runoff temez0 subW 20 (by norm_num [calculateTc, subW])
      (by norm_num [calculateTc, jsOr, subW]) (by norm_num [subW]) (by norm_num)⟩

theorem clark_mass_loss_counterexample :
    ((clarkUnitHydrograph temez0 sub01 10 (1/4)).map (·.flow)).sum * (1/4) * 3600 = 0 ∧
      ¬ |((clarkUnitHydrograph temez0 sub01 10 (1/4)).map (·.flow)).sum * (1/4) * 3600 -
            10 / 1000 * sub01.area * 1000000| ≤
          10 / 1000 * sub01.area * 1000000 / 100 := by
  have hfrac0 : ∀ i : ℕ, clarkFrac (1/10 : ℚ) (1/4) i = 0 := by
    intro i
    unfold clarkFrac
    by_cases hi : i = 0
    · subst hi
      rw [if_pos (by norm_num)]
      norm_num [taf]
    · rw [if_neg]
      rintro ⟨h, -⟩
      have h1 : (1 : ℚ) ≤ (i : ℚ) := by
        exact_mod_cast Nat.one_le_iff_ne_zero.mpr hi
      linarith
  have hflows : ((clarkUnitHydrograph temez0 sub01 10 (1/4)).map (·.flow)) =
      reservoir (2/9) (7/9) (clarkInflow (1/10) 100000 (1/4) (⌈(82:ℚ)/5⌉.toNat)) 0 := by
    simp only [clarkUnitHydrograph, calculateTc, sub01, jsOr]
    rw [enum_map_flow]
    norm_num
  have hsum0 : (clarkInflow (1/10) 100000 (1/4) (⌈(82:ℚ)/5⌉.toNat)).sum = 0 := by
    rw [clarkInflow_eq_frac]
    apply List.sum_eq_zero
    intro x hx
    obtain ⟨i, _, rfl⟩ := List.mem_map.mp hx
    rw [hfrac0 i, zero_mul]
  have hle := reservoir_sum_le (2/9) (7/9) (by norm_num) (by norm_num) (by norm_num)
    (clarkInflow (1/10) 100000 (1/4) (⌈(82:ℚ)/5⌉.toNat)) 0
    (by
      intro f hf
      rw [clarkInflow_eq_frac] at hf
      obtain ⟨i, _, rfl⟩ := List.mem_map.mp hf
      rw [hfrac0 i, zero_mul]) le_rfl
  rw [hsum0, mul_zero, mul_zero, add_zero] at hle
  have hge : 0 ≤ (reservoir (2/9) (7/9)
      (clarkInflow (1/10) 100000 (1/4) (⌈(82:ℚ)/5⌉.toNat)) 0).sum :=
    List.sum_nonneg (reservoir_mem_nonneg (2/9) (7/9) _ 0)
  have hzero : (reservoir (2/9) (7/9)
      (clarkInflow (1/10) 100000 (1/4) (⌈(82:ℚ)/5⌉.toNat)) 0).sum = 0 := by
    nlinarith
  rw [hflows, hzero]
  norm_num [sub01]

/-! ## C8 — determinism of the pipeline up to the wall clock -/

theorem stripTime_calc (temez : Subc → ℚ) (b : Basin) (pm : PrecipMap) (t1 t2 : String) :
    stripTime (calculateBasinDistributed temez t1 b pm) =
      stripTime (calculateBasinDistributed temez t2 b pm) := by
  unfold calculateBasinDistributed calculateLumped stripTime
  by_cases h : b.subcatchments = [] <;> simp [h]

theorem peakFlow_calc (temez : Subc → ℚ) (b : Basin) (pm : PrecipMap) (t1 t2 : String) :
    (calculateBasinDistributed temez t1 b pm).peakFlow =
      (calculateBasinDistributed temez t2 b pm).peakFlow := by
  have h := stripTime_calc temez b pm t1 t2
  have h1 : (stripTime (calculateBasinDistributed temez t1 b pm)).peakFlow =
      (calculateBasinDistributed temez t1 b pm).peakFlow := rfl
  have h2 : (stripTime (calculateBasinDistributed temez t2 b pm)).peakFlow =
      (calculateBasinDistributed temez t2 b pm).peakFlow := rfl
  rw [← h1, ← h2, h]

theorem pipeline_alerts_strip (temez : Subc → ℚ) (b : Basin) (pm : PrecipMap) (t1 t2 : String) :
    (runPipeline temez t1 b pm).2.map stripTimeA = (runPipeline temez t2 b pm).2.map stripTimeA := by
  have hpf := peakFlow_calc temez b pm t1 t2
  simp only [runPipeline, evaluate, alertsOf]
  rw [hpf]
  by_cases hlv : classify (jsOr (calculateBasinDistributed temez t2 b pm).peakFlow 0)
      (jsOr pm.maxIntensity 0) (jsOr pm.mean 0) (b.thresholds.getD ⟨50, 150, 300⟩) = .green
  · rw [if_pos hlv, if_pos hlv]
  · rw [if_neg hlv, if_neg hlv]
    rcases hc : classify (jsOr (calculateBasinDistributed temez t2 b pm).peakFlow 0)
        (jsOr pm.maxIntensity 0) (jsOr pm.mean 0) (b.thresholds.getD ⟨50, 150, 300⟩) with g | y | o | r
    · exact absurd hc hlv
    · simp [sortAlerts, stripTimeA,
        show decide (Level.yellow = Level.red) = false from rfl,
        show decide (Level.yellow = Level.orange) = false from rfl,
        show decide (Level.yellow = Level.yellow) = true from rfl]
    · simp [sortAlerts, stripTimeA,
        show decide (Level.orange = Level.red) = false from rfl,
        show decide (Level.orange = Level.orange) = true from rfl,
        show decide (Level.orange = Level.yellow) = false from rfl]
    · simp [sortAlerts, stripTimeA,
        show decide (Level.red = Level.red) = true from rfl,
        show decide (Level.red = Level.orange) = false from rfl,
        show decide (Level.red = Level.yellow) = false from rfl]

/-- C8 (amended): with the wall clock modelled as an explicit input, one
basin's pipeline slice (distributed model plus classification) is a pure
function of the snapshot — two runs differ at most in the `timestamp`
fields, which record the clock; every hydrological and alert field is
identical. -/
theorem pipeline_pure_up_to_timestamp (temez : Subc → ℚ) (b : Basin) (pm : PrecipMap)
    (t1 t2 : String) :
    stripTime (runPipeline temez t1 b pm).1 = stripTime (runPipeline temez t2 b pm).1 ∧
      (runPipeline temez t1 b pm).2.map stripTimeA =
        (runPipeline temez t2 b pm).2.map stripTimeA :=
  ⟨stripTime_calc temez b pm t1 t2, pipeline_alerts_strip temez b pm t1 t2⟩

/-- Counterexample for C8 as stated: the emitted basin result embeds
`new Date().toISOString()`, so two runs of the very same snapshot at
different clock readings are not byte-identical. -/
theorem pipeline_timestamp_counterexample :
    runPipeline temez0 "2026-02-14T10:00:00.000Z" b1 pm1 ≠
      runPipeline temez0 "2026-02-14T10:05:00.000Z" b1 pm1 := by
  intro h
  have h1 : (runPipeline temez0 "2026-02-14T10:00:00.000Z" b1 pm1).1.timestamp =
      "2026-02-14T10:00:00.000Z" := rfl
  have h2 : (runPipeline temez0 "2026-02-14T10:05:00.000Z" b1 pm1).1.timestamp =
      "2026-02-14T10:05:00.000Z" := rfl
  rw [h] at h1
  rw [h2] at h1
  exact absurd h1 (by decide)

/-! ## C1 — composite hydrograph of the distributed basin model -/

theorem flowStep_eq (i : ℕ) (tf : ℚ) (sr : SubResult) :
    flowStep i tf sr = tf + ((sr.routedHydrograph[i]?).map Sample.flow).getD 0 := by
  unfold flowStep
  cases h : sr.routedHydrograph[i]? with
  | none => simp
  | some s => simp

theorem flowSumAt_eq (srs : List SubResult) (i : ℕ) :
    flowSumAt srs i =
      (srs.map fun sr => ((sr.routedHydrograph[i]?).map Sample.flow).getD 0).sum := by
  have key : ∀ (l : List SubResult) (a : ℚ),
      l.foldl (flowStep i) a =
        a + (l.map fun sr => ((sr.routedHydrograph[i]?).map Sample.flow).getD 0).sum := by
    intro l
    induction l with
    | nil => intro a; simp
    | cons sr rest ih =>
      intro a
      simp only [List.foldl_cons, List.map_cons, List.sum_cons, flowStep_eq, ih]
      ring
  unfold flowSumAt
  rw [key]
  ring

theorem maxTimeOf_nonneg (srs : List SubResult) : 0 ≤ maxTimeOf srs := by
  have key : ∀ (l : List SubResult) (m : ℚ), m ≤ l.foldl
      (fun m sr =>
        match sr.routedHydrograph.getLast? with
        | some s => max m s.time
        | none => m) m := by
    intro l
    induction l with
    | nil => intro m; simp
    | cons sr rest ih =>
      intro m
      simp only [List.foldl_cons]
      refine le_trans ?_ (ih _)
      cases h : sr.routedHydrograph.getLast? with
      | none => exact le_rfl
      | some s => exact le_max_left m s.time
  exact key _ 0

theorem mem_flow_of_mem_enum_map {flows : List ℚ} {g : ℕ × ℚ → ℚ} {s : Sample}
    (h : s ∈ flows.enum.map fun p => (⟨g p, p.2⟩ : Sample)) : s.flow ∈ flows := by
  have h2 : s.flow ∈ (flows.enum.map fun p => (⟨g p, p.2⟩ : Sample)).map (·.flow) :=
    List.mem_map_of_mem _ h
  rwa [enum_map_flow] at h2

theorem clark_flows_nonneg (temez : Subc → ℚ) (sub : Subc) (Pe dt0 : ℚ) :
    ∀ s ∈ clarkUnitHydrograph temez sub Pe dt0, 0 ≤ s.flow := by
  intro s hs
  rw [clarkUnitHydrograph] at hs
  have := mem_flow_of_mem_enum_map hs
  exact reservoir_mem_nonneg _ _ _ _ _ this

theorem muskingumPass_iterate_nonneg (c0 c1 c2 : ℚ) :
    ∀ (n : ℕ) (flows : List ℚ), (∀ f ∈ flows, 0 ≤ f) →
      ∀ x ∈ (muskingumPass c0 c1 c2)^[n] flows, 0 ≤ x
  | 0, flows, hnn => hnn
  | n + 1, flows, hnn => by
    rw [Function.iterate_succ_apply]
    exact muskingumPass_iterate_nonneg c0 c1 c2 n (muskingumPass c0 c1 c2 flows)
      (muskingumPass_mem_nonneg c0 c1 c2 flows hnn)

theorem muskingum_flows_nonneg (hyd : List Sample) (routing : Option Routing) (dt0 : ℚ)
    (hf : ∀ s ∈ hyd, 0 ≤ s.flow) :
    ∀ s ∈ muskingumRouting hyd routing dt0, 0 ≤ s.flow := by
  intro s hs
  cases routing with
  | none => exact hf s hs
  | some r =>
    cases hk : r.K with
    | none =>
      simp only [muskingumRouting, hk] at hs
      exact hf s hs
    | some k =>
      simp only [muskingumRouting, hk] at hs
      by_cases hk0 : k = 0
      · rw [if_pos hk0] at hs
        exact hf s hs
      · rw [if_neg hk0] at hs
        have hmem := mem_flow_of_mem_enum_map hs
        have hnnf : ∀ f ∈ hyd.map (·.flow), 0 ≤ f := by
          intro f hfm
          obtain ⟨t, ht, rfl⟩ := List.mem_map.mp hfm
          exact hf t ht
        rw [muskingumApply] at hmem
        by_cases hden : k - k * effX r + jsOr dt0 (1/4) / 2 ≤ 0
        · rw [if_pos hden] at hmem
          exact hnnf _ hmem
        · rw [if_neg hden] at hmem
          exact muskingumPass_iterate_nonneg _ _ _ _ _ hnnf _ hmem

theorem routedSubResult_flows_nonneg (temez : Subc → ℚ) (pm : PrecipMap) (sub : Subc) :
    ∀ s ∈ (routedSubResult temez pm sub).routedHydrograph, 0 ≤ s.flow := by
  intro s hs
  have hhyd : ∀ t ∈ (calculateSubcatchment temez sub
      ((pm.lookup sub.id).getD ⟨0, 0⟩).precip
      ((pm.lookup sub.id).getD ⟨0, 0⟩).intensity).hydrograph, 0 ≤ t.flow := by
    intro t ht
    have heq : (calculateSubcatchment temez sub
        ((pm.lookup sub.id).getD ⟨0, 0⟩).precip
        ((pm.lookup sub.id).getD ⟨0, 0⟩).intensity).hydrograph =
        if 0 < scsCurveNumber ((pm.lookup sub.id).getD ⟨0, 0⟩).precip sub.cn then
          clarkUnitHydrograph temez sub
            (scsCurveNumber ((pm.lookup sub.id).getD ⟨0, 0⟩).precip sub.cn) (1/4)
        else [] := rfl
    rw [heq] at ht
    by_cases hc : 0 < scsCurveNumber ((pm.lookup sub.id).getD ⟨0, 0⟩).precip sub.cn
    · rw [if_pos hc] at ht
      exact clark_flows_nonneg temez sub _ _ t ht
    · rw [if_neg hc] at ht
      exact absurd ht (List.not_mem_nil t)
  rw [routedSubResult] at hs
  by_cases hc : 0 < (calculateSubcatchment temez sub
      ((pm.lookup sub.id).getD ⟨0, 0⟩).precip
      ((pm.lookup sub.id).getD ⟨0, 0⟩).intensity).hydrograph.length ∧
      sub.routingToOutlet.isSome
  · rw [if_pos hc] at hs
    exact muskingum_flows_nonneg _ _ _ hhyd s hs
  · rw [if_neg hc] at hs
    exact hhyd s hs

theorem flowSumAt_nonneg (temez : Subc → ℚ) (basin : Basin) (pm : PrecipMap) (i : ℕ) :
    0 ≤ flowSumAt (subResultsOf temez basin pm) i := by
  rw [flowSumAt_eq]
  apply List.sum_nonneg
  intro x hx
  obtain ⟨sr, hsr, rfl⟩ := List.mem_map.mp hx
  obtain ⟨sub, hsub, rfl⟩ := List.mem_map.mp hsr
  cases h : (routedSubResult temez pm sub).routedHydrograph[i]? with
  | none => simp
  | some s =>
    have hmem : s ∈ (routedSubResult temez pm sub).routedHydrograph :=
      List.getElem?_mem h
    simp only [h, Option.map_some', Option.getD_some]
    exact routedSubResult_flows_nonneg temez pm sub s hmem

theorem find_first_flow : ∀ (l : List Sample) (q : ℚ), (∃ s ∈ l, s.flow = q) →
    ∃ (i : ℕ) (hi : i < l.length), (l.get ⟨i, hi⟩).flow = q ∧
      (∀ (j : ℕ) (hj : j < l.length), j < i → (l.get ⟨j, hj⟩).flow ≠ q) ∧
      l.find? (fun s => decide (s.flow = q)) = some (l.get ⟨i, hi⟩)
  | [], q, h => by
    obtain ⟨s, hs, -⟩ := h
    exact absurd hs (List.not_mem_nil s)
  | a :: l, q, h => by
    by_cases ha : a.flow = q
    · refine ⟨0, by simp, by simpa using ha, ?_, ?_⟩
      · intro j hj hj0
        exact absurd hj0 (Nat.not_lt_zero j)
      · rw [List.find?_cons_of_pos _ (by simpa using ha)]
        rfl
    · have htail : ∃ s ∈ l, s.flow = q := by
        obtain ⟨s, hs, hsq⟩ := h
        rcases List.mem_cons.mp hs with rfl | hm
        · exact absurd hsq ha
        · exact ⟨s, hm, hsq⟩
      obtain ⟨i, hi, hiq, hfirst, hfind⟩ := find_first_flow l q htail
      refine ⟨i + 1, by simpa using Nat.succ_lt_succ hi, by simpa using hiq, ?_, ?_⟩
      · intro j hj hji
        cases j with
        | zero => simpa using ha
        | succ j' =>
          have hj' : j' < l.length := by simpa using Nat.lt_of_succ_lt_succ hj
          have := hfirst j' hj' (Nat.lt_of_succ_lt_succ hji)
          simpa using this
      · rw [List.find?_cons_of_neg _ (by simpa using ha)]
        simpa using hfind

/-- C1: for every basin with at least one subcatchment, the composite
hydrograph of `calculateBasinDistributed` has one sample per index
`i = 0 … ⌈T_max/Δt⌉` (`Δt = 1/4 h`, `T_max` the latest routed sample time),
`composite[i] = ⟨i·Δt, Σ_sub (routed[i].flow if the index exists else 0)⟩`;
the reported peak flow is the maximum composite flow ROUNDED half-up to one
decimal (not the exact maximum, refuting the claim as stated), and the
reported peak time is the time of the first index achieving the exact
maximum. -/
theorem calculateBasinDistributed_composite_spec (temez : Subc → ℚ) (now : String)
    (basin : Basin) (pm : PrecipMap) (hsubs : basin.subcatchments ≠ []) :
    (calculateBasinDistributed temez now basin pm).compositeHydrograph.length =
        (⌈maxTimeOf (subResultsOf temez basin pm) / (1/4 : ℚ)⌉ + 1).toNat ∧
      (∀ i : ℕ, i < (calculateBasinDistributed temez now basin pm).compositeHydrograph.length →
        (calculateBasinDistributed temez now basin pm).compositeHydrograph[i]? =
          some ⟨(i : ℚ) * (1/4),
            ((subResultsOf temez basin pm).map fun sr =>
              ((sr.routedHydrograph[i]?).map Sample.flow).getD 0).sum⟩) ∧
      (calculateBasinDistributed temez now basin pm).peakFlow =
        round1dp (maxFlow
          ((calculateBasinDistributed temez now basin pm).compositeHydrograph.map (·.flow))) ∧
      ∃ i : ℕ, i < (calculateBasinDistributed temez now basin pm).compositeHydrograph.length ∧
        (∃ s : Sample, (calculateBasinDistributed temez now basin pm).compositeHydrograph[i]? = some s ∧
          s.flow = maxFlow ((calculateBasinDistributed temez now basin pm).compositeHydrograph.map (·.flow))) ∧
        (∀ j : ℕ, j < i → ∀ s : Sample,
          (calculateBasinDistributed temez now basin pm).compositeHydrograph[j]? = some s →
          s.flow ≠ maxFlow ((calculateBasinDistributed temez now basin pm).compositeHydrograph.map (·.flow))) ∧
        (calculateBasinDistributed temez now basin pm).peakTime = some ((i : ℚ) * (1/4)) := by
  have hcomp : (calculateBasinDistributed temez now basin pm).compositeHydrograph =
      (List.range ((⌈maxTimeOf (subResultsOf temez basin pm) / (1/4 : ℚ)⌉ + 1).toNat)).map
        (fun i : ℕ => (⟨round2dp ((i : ℚ) * (1/4)),
          flowSumAt (subResultsOf temez basin pm) i⟩ : Sample)) := by
    simp only [calculateBasinDistributed, if_neg hsubs]
  have hlen0 : (0:ℤ) ≤ ⌈maxTimeOf (subResultsOf temez basin pm) / (1/4 : ℚ)⌉ := by
    apply Int.ceil_nonneg
    apply div_nonneg (maxTimeOf_nonneg _)
    norm_num
  have hnpos : 0 < (⌈maxTimeOf (subResultsOf temez basin pm) / (1/4 : ℚ)⌉ + 1).toNat := by
    omega
  have hlength : (calculateBasinDistributed temez now basin pm).compositeHydrograph.length =
      (⌈maxTimeOf (subResultsOf temez basin pm) / (1/4 : ℚ)⌉ + 1).toNat := by
    rw [hcomp]
    simp
  have hsample : ∀ i : ℕ,
      i < (calculateBasinDistributed temez now basin pm).compositeHydrograph.length →
      (calculateBasinDistributed temez now basin pm).compositeHydrograph[i]? =
        some ⟨(i : ℚ) * (1/4),
          ((subResultsOf temez basin pm).map fun sr =>
            ((sr.routedHydrograph[i]?).map Sample.flow).getD 0).sum⟩ := by
    intro i hi
    rw [hlength] at hi
    rw [hcomp, List.getElem?_map, List.getElem?_range (by simpa using hi)]
    simp only [Option.map_some']
    rw [round2dp_quarter, flowSumAt_eq]
  refine ⟨hlength, hsample, ?_, ?_⟩
  · have hpf : (calculateBasinDistributed temez now basin pm).peakFlow =
        round1dp (if 0 <
            ((List.range ((⌈maxTimeOf (subResultsOf temez basin pm) / (1/4 : ℚ)⌉ + 1).toNat)).map
              (fun i : ℕ => (⟨round2dp ((i : ℚ) * (1/4)),
                flowSumAt (subResultsOf temez basin pm) i⟩ : Sample))).length then
          maxFlow (((List.range ((⌈maxTimeOf (subResultsOf temez basin pm) / (1/4 : ℚ)⌉ + 1).toNat)).map
              (fun i : ℕ => (⟨round2dp ((i : ℚ) * (1/4)),
                flowSumAt (subResultsOf temez basin pm) i⟩ : Sample))).map (·.flow))
          else 0) := by
      simp only [calculateBasinDistributed, if_neg hsubs]
    rw [hpf, ← hcomp, if_pos (by rw [hlength]; exact hnpos)]
  · have hlenpos : 0 < (calculateBasinDistributed temez now basin pm).compositeHydrograph.length := by
      rw [hlength]
      exact hnpos
    have hflow_nonneg : ∀ x ∈ ((calculateBasinDistributed temez now basin pm).compositeHydrograph.map (·.flow)),
        0 ≤ x := by
      rw [hcomp]
      intro x hx
      rw [List.map_map, List.mem_map] at hx
      obtain ⟨j, -, rfl⟩ := hx
      exact flowSumAt_nonneg temez basin pm j
    have hne : (calculateBasinDistributed temez now basin pm).compositeHydrograph.map (·.flow) ≠ [] := by
      intro hnil
      have := congrArg List.length hnil
      simp only [List.length_map, List.length_nil] at this
      omega
    have hpkmem := maxFlow_mem hne hflow_nonneg
    obtain ⟨s, hsmem, hsflow⟩ := List.mem_map.mp hpkmem
    obtain ⟨i, hi, hiq, hfirst, hfind⟩ := find_first_flow
      (calculateBasinDistributed temez now basin pm).compositeHydrograph
      (maxFlow ((calculateBasinDistributed temez now basin pm).compositeHydrograph.map (·.flow)))
      ⟨s, hsmem, hsflow⟩
    have hgeteq : (calculateBasinDistributed temez now basin pm).compositeHydrograph[i]? =
        some ((calculateBasinDistributed temez now basin pm).compositeHydrograph.get ⟨i, hi⟩) := by
      rw [List.getElem?_eq_getElem hi]
      rfl
    have hgetval := hsample i hi
    have hgeti : (calculateBasinDistributed temez now basin pm).compositeHydrograph.get ⟨i, hi⟩ =
        ⟨(i : ℚ) * (1/4),
          ((subResultsOf temez basin pm).map fun sr =>
            ((sr.routedHydrograph[i]?).map Sample.flow).getD 0).sum⟩ := by
      have := hgeteq.symm.trans hgetval
      exact Option.some.inj this
    refine ⟨i, hi, ⟨_, hgeteq, hiq⟩, ?_, ?_⟩
    · intro j hji t ht
      have hj : j < (calculateBasinDistributed temez now basin pm).compositeHydrograph.length :=
        lt_trans hji hi
      have hgetj : (calculateBasinDistributed temez now basin pm).compositeHydrograph[j]? =
          some ((calculateBasinDistributed temez now basin pm).compositeHydrograph.get ⟨j, hj⟩) := by
        rw [List.getElem?_eq_getElem hj]
        rfl
      have ht' : t = (calculateBasinDistributed temez now basin pm).compositeHydrograph.get ⟨j, hj⟩ :=
        Option.some.inj (ht.symm.trans hgetj)
      rw [ht']
      exact hfirst j hj hji
    · show (calculateBasinDistributed temez now basin pm).peakTime = some ((i : ℚ) * (1/4))
      simp only [calculateBasinDistributed, if_neg hsubs]
      rw [← hcomp]
      simp only [if_pos hlenpos]
      rw [hfind]
      rw [hgeti]
      simp only [jsOr_zero]
      rw [round2dp_quarter]

theorem b1_subs_ne : b1.subcatchments ≠ [] := by
  rw [show b1.subcatchments = [subR] from rfl]
  exact List.cons_ne_nil _ _

theorem srs_b1 : subResultsOf temez0 b1 pm1 = [routedSubResult temez0 pm1 subR] := rfl

theorem maxTimeOf_b1 : maxTimeOf (subResultsOf temez0 b1 pm1) = 3/4 := by
  rw [srs_b1]
  unfold maxTimeOf
  simp only [List.foldl_cons, List.foldl_nil, subresult_fixture.2]
  norm_num [max_def]

theorem flowSumAt_b1 (i : ℕ) : flowSumAt (subResultsOf temez0 b1 pm1) i =
    (((([⟨0, 0⟩, ⟨1/4, 0⟩, ⟨1/2, 140000/243⟩, ⟨3/4, 1052000/729⟩] : List Sample))[i]?).map
      Sample.flow).getD 0 := by
  rw [srs_b1, flowSumAt_eq]
  simp only [List.map_cons, List.map_nil, List.sum_cons, List.sum_nil, subresult_fixture.2]
  ring

theorem composite_b1 : (calculateBasinDistributed temez0 "t" b1 pm1).compositeHydrograph =
    [⟨0, 0⟩, ⟨1/4, 0⟩, ⟨1/2, 140000/243⟩, ⟨3/4, 1052000/729⟩] := by
  have hn : ((⌈maxTimeOf (subResultsOf temez0 b1 pm1) / (1/4 : ℚ)⌉ + 1).toNat) = 4 := by
    rw [maxTimeOf_b1, show ((3/4 : ℚ) / (1/4)) = 3 by norm_num,
      show (⌈(3:ℚ)⌉ : ℤ) = 3 by rw [Int.ceil_eq_iff]; norm_num]
    rfl
  simp only [calculateBasinDistributed, if_neg b1_subs_ne]
  rw [hn, show List.range 4 = [0, 1, 2, 3] from rfl]
  simp only [List.map_cons, List.map_nil, round2dp_quarter, flowSumAt_b1]
  norm_num

theorem peakFlow_b1 : (calculateBasinDistributed temez0 "t" b1 pm1).peakFlow = 14431/10 := by
  have hcomp := composite_b1
  have hpf : (calculateBasinDistributed temez0 "t" b1 pm1).peakFlow =
      round1dp (if 0 < (calculateBasinDistributed temez0 "t" b1 pm1).compositeHydrograph.length
        then maxFlow ((calculateBasinDistributed temez0 "t" b1 pm1).compositeHydrograph.map (·.flow))
        else 0) := by
    simp only [calculateBasinDistributed, if_neg b1_subs_ne]
  rw [hpf, hcomp]
  rw [if_pos (by norm_num)]
  rw [show maxFlow (([⟨0, 0⟩, ⟨1/4, 0⟩, ⟨1/2, 140000/243⟩,
      ⟨3/4, 1052000/729⟩] : List Sample).map (·.flow)) = 1052000/729 by
    norm_num [maxFlow, max_def]]
  rw [round1dp, jsRound,
    show (⌊(1052000:ℚ)/729 * 10 + 1/2⌋ : ℤ) = 14431 by
      rw [Int.floor_eq_iff]; norm_num]
  norm_num

/-- Counterexample for C1 as stated: on the one-subcatchment fixture basin
the exact maximum composite flow is `1052000/729 ≈ 1443.0727`, but the
reported `peakFlow` is `Math.round(peak*10)/10 = 1443.1`, so the reported
peak flow is NOT the maximum composite flow. -/
theorem distributed_peak_not_exact_counterexample :
    (calculateBasinDistributed temez0 "t" b1 pm1).peakFlow ≠
      maxFlow ((calculateBasinDistributed temez0 "t" b1 pm1).compositeHydrograph.map (·.flow)) := by
  rw [peakFlow_b1, composite_b1]
  norm_num [maxFlow, max_def]

theorem calculateBasinDistributed_composite_spec_witness :
    b1.subcatchments ≠ [] ∧
    ((calculateBasinDistributed temez0 "t" b1 pm1).compositeHydrograph.length =
        (⌈maxTimeOf (subResultsOf temez0 b1 pm1) / (1/4 : ℚ)⌉ + 1).toNat ∧
      (∀ i : ℕ, i < (calculateBasinDistributed temez0 "t" b1 pm1).compositeHydrograph.length →
        (calculateBasinDistributed temez0 "t" b1 pm1).compositeHydrograph[i]? =
          some ⟨(i : ℚ) * (1/4),
            ((subResultsOf temez0 b1 pm1).map fun sr =>
              ((sr.routedHydrograph[i]?).map Sample.flow).getD 0).sum⟩) ∧
      (calculateBasinDistributed temez0 "t" b1 pm1).peakFlow =
        round1dp (maxFlow
          ((calculateBasinDistributed temez0 "t" b1 pm1).compositeHydrograph.map (·.flow))) ∧
      ∃ i : ℕ, i < (calculateBasinDistributed temez0 "t" b1 pm1).compositeHydrograph.length ∧
        (∃ s : Sample, (calculateBasinDistributed temez0 "t" b1 pm1).compositeHydrograph[i]? = some s ∧
          s.flow = maxFlow ((calculateBasinDistributed temez0 "t" b1 pm1).compositeHydrograph.map (·.flow))) ∧
        (∀ j : ℕ, j < i → ∀ s : Sample,
          (calculateBasinDistributed temez0 "t" b1 pm1).compositeHydrograph[j]? = some s →
          s.flow ≠ maxFlow ((calculateBasinDistributed temez0 "t" b1 pm1).compositeHydrograph.map (·.flow))) ∧
        (calculateBasinDistributed temez0 "t" b1 pm1).peakTime = some ((i : ℚ) * (1/4))) :=
  ⟨b1_subs_ne, calculateBasinDistributed_composite_spec temez0 "t" b1 pm1 b1_subs_ne⟩
